import Mathlib

/-!
Verification of the KEA GDAL raster-band driver (`src/trunk/gdal/KEABand.cpp`,
with declarations from `src/trunk/include/libkea/KEAImageIO.h` and
`src/trunk/gdal/KEADataset.h`) against its natural-language specification.

The C++ code is shallowly embedded: C `int` arithmetic becomes `Int`,
C strings become `List Char`, the in-memory attribute table becomes an
explicit record, thrown exceptions become `Except`, and the shared
reference count becomes explicit state passing.
-/

set_option autoImplicit false

namespace KEA

/-! ## Block transfer clipping (KEABand.cpp, IReadBlock lines 157-187 and
IWriteBlock lines 190-221)

Both methods compute a clipped transfer rectangle before handing the buffer
to `readImageBlock2Band` / `writeImageBlock2Band`. -/

/-- A transfer rectangle as passed to `readImageBlock2Band` /
`writeImageBlock2Band`: pixel offset and clipped size. -/
structure TransferRect where
  xoff : Int
  yoff : Int
  xsize : Int
  ysize : Int
deriving DecidableEq, Repr

/-- Embedding of the transfer rectangle computed by
`KEARasterBand::IReadBlock` (KEABand.cpp lines 163-178): the block size is
reduced when the block extends past the raster edge. -/
def ireadBlockRect (nBlockXSize nBlockYSize nRasterXSize nRasterYSize : Int)
    (nBlockXOff nBlockYOff : Int) : TransferRect :=
  let xsize0 := nBlockXSize
  let xtotalsize := nBlockXSize * (nBlockXOff + 1)
  let xsize := if xtotalsize > nRasterXSize then xsize0 - (xtotalsize - nRasterXSize) else xsize0
  let ysize0 := nBlockYSize
  let ytotalsize := nBlockYSize * (nBlockYOff + 1)
  let ysize := if ytotalsize > nRasterYSize then ysize0 - (ytotalsize - nRasterYSize) else ysize0
  ⟨nBlockXSize * nBlockXOff, nBlockYSize * nBlockYOff, xsize, ysize⟩

/-- Embedding of the transfer rectangle computed by
`KEARasterBand::IWriteBlock` (KEABand.cpp lines 196-212); the arithmetic is
textually the same as in `IReadBlock`. -/
def iwriteBlockRect (nBlockXSize nBlockYSize nRasterXSize nRasterYSize : Int)
    (nBlockXOff nBlockYOff : Int) : TransferRect :=
  let xsize0 := nBlockXSize
  let xtotalsize := nBlockXSize * (nBlockXOff + 1)
  let xsize := if xtotalsize > nRasterXSize then xsize0 - (xtotalsize - nRasterXSize) else xsize0
  let ysize0 := nBlockYSize
  let ytotalsize := nBlockYSize * (nBlockYOff + 1)
  let ysize := if ytotalsize > nRasterYSize then ysize0 - (ytotalsize - nRasterYSize) else ysize0
  ⟨nBlockXSize * nBlockXOff, nBlockYSize * nBlockYOff, xsize, ysize⟩

/-- C2: For every raster of size W×H with block size B and block coordinate
(blockX, blockY), the transfer rectangle passed by `IReadBlock` and
`IWriteBlock` to the underlying block I/O has width B when B×(blockX+1) ≤ W
and otherwise B − (B×(blockX+1) − W), and the analogous height; in
particular for a 100×100 image with block size 64 the block at (1,1)
transfers a 36×36 rectangle at pixel offset (64,64). -/
theorem claim_C2_block_clipping :
    (∀ B C W H x y : Int,
      ireadBlockRect B C W H x y =
        ⟨B * x, C * y,
         if B * (x + 1) ≤ W then B else B - (B * (x + 1) - W),
         if C * (y + 1) ≤ H then C else C - (C * (y + 1) - H)⟩ ∧
      iwriteBlockRect B C W H x y =
        ⟨B * x, C * y,
         if B * (x + 1) ≤ W then B else B - (B * (x + 1) - W),
         if C * (y + 1) ≤ H then C else C - (C * (y + 1) - H)⟩) ∧
    ireadBlockRect 64 64 100 100 1 1 = ⟨64, 64, 36, 36⟩ ∧
    iwriteBlockRect 64 64 100 100 1 1 = ⟨64, 64, 36, 36⟩ := by
  refine ⟨fun B C W H x y => ⟨?_, ?_⟩, by decide, by decide⟩ <;>
    · simp only [ireadBlockRect, iwriteBlockRect]
      congr 1 <;> split_ifs <;> first | rfl | omega

/-! ## Shared container handle and reference count (KEABand.cpp lines 52-56
and 88-95; KEADataset.h lines 83-85)

The `KEAImageIO` object and its `int` reference counter are shared by the
dataset, every band and every overview object.  The band constructor
increments the counter; the band destructor decrements it and, on reaching
zero, calls `close()` on the container, deletes the `KEAImageIO` object and
deletes the counter storage. -/

/-- State of one shared container handle: the value of the shared `int`
counter, how many times `KEAImageIO::close` (together with
`delete m_pImageIO; delete m_pnRefCount;`) has run, and whether the counter
storage has been freed. -/
structure SharedHandle where
  refCount : Int
  closeCalls : Nat
  counterFreed : Bool
deriving DecidableEq, Repr

/-- Refcount action of the `KEARasterBand` constructor (KEABand.cpp line 56:
`(*this->m_pnRefCount)++;`). -/
def bandAcquire (s : SharedHandle) : SharedHandle :=
  { s with refCount := s.refCount + 1 }

/-- Refcount action of the `KEARasterBand` destructor (KEABand.cpp lines
89-95): decrement, and when the counter reaches zero close the container
and free the `KEAImageIO` object and the counter storage. -/
def bandRelease (s : SharedHandle) : SharedHandle :=
  let rc := s.refCount - 1
  if rc = 0 then
    { refCount := rc, closeCalls := s.closeCalls + 1, counterFreed := true }
  else
    { s with refCount := rc }

/-- Modelled from the spec: `KEAOverview`'s constructor (KEAOverview.cpp is
not under src/; spec §4.5: every Overview "calls acquire() exactly once at
construction"), passed the same `m_pnRefCount` as the band
(KEABand.cpp line 152). -/
def overviewAcquire (s : SharedHandle) : SharedHandle :=
  { s with refCount := s.refCount + 1 }

/-- Modelled from the spec: `KEAOverview`'s destructor (KEAOverview.cpp is
not under src/; spec §4.5: every Overview "calls release() exactly once at
destruction", §2: "overview objects do the same"), with the same
close-and-free-on-zero behaviour as the band destructor. -/
def overviewRelease (s : SharedHandle) : SharedHandle :=
  let rc := s.refCount - 1
  if rc = 0 then
    { refCount := rc, closeCalls := s.closeCalls + 1, counterFreed := true }
  else
    { s with refCount := rc }

/-- A live in-memory object holding the shared handle: the band itself or
one of its overview objects. -/
inductive HandleHolder where
  | band : HandleHolder
  | overview : Nat → HandleHolder
deriving DecidableEq, Repr

/-- Destroying one holder runs the corresponding destructor. -/
def destroyOne (o : HandleHolder) (s : SharedHandle) : SharedHandle :=
  match o with
  | .band => bandRelease s
  | .overview _ => overviewRelease s

/-- Destroying a sequence of holders, in order. -/
def destroyAll (l : List HandleHolder) (s : SharedHandle) : SharedHandle :=
  l.foldl (fun s o => destroyOne o s) s

/-- A fresh counter with no live holders yet (the band and its overviews
will be the only holders in the scenario of the claim). -/
def freshHandle : SharedHandle := ⟨0, 0, false⟩

/-- Constructing the band and then `k` overview objects from it. -/
def constructBandAndOverviews (k : Nat) : SharedHandle :=
  (List.range k).foldl (fun s _ => overviewAcquire s) (bandAcquire freshHandle)

/-- The band plus `k` overview objects. -/
def allHolders (k : Nat) : List HandleHolder :=
  .band :: (List.range k).map .overview

theorem destroyAll_nil (s : SharedHandle) : destroyAll [] s = s := rfl

theorem destroyAll_cons (a : HandleHolder) (t : List HandleHolder) (s : SharedHandle) :
    destroyAll (a :: t) s = destroyAll t (bandRelease s) := by
  cases a <;> rfl

theorem destroyAll_of_lt (l : List HandleHolder) (s : SharedHandle)
    (h : (l.length : Int) < s.refCount) :
    destroyAll l s =
      { refCount := s.refCount - l.length, closeCalls := s.closeCalls,
        counterFreed := s.counterFreed } := by
  induction l generalizing s with
  | nil => simp [destroyAll]
  | cons a t ih =>
    rw [destroyAll_cons]
    have hne : s.refCount - 1 ≠ 0 := by
      simp only [List.length_cons] at h
      push_cast at h
      omega
    rw [bandRelease]
    simp only [if_neg hne]
    rw [ih _ (by simp only [List.length_cons] at h; push_cast at h ⊢; omega)]
    simp only [List.length_cons, SharedHandle.mk.injEq, and_true]
    push_cast
    omega

theorem destroyAll_exact (l : List HandleHolder) (s : SharedHandle)
    (hlen : s.refCount = (l.length : Int)) (hpos : 0 < l.length) :
    destroyAll l s =
      { refCount := 0, closeCalls := s.closeCalls + 1, counterFreed := true } := by
  induction l generalizing s with
  | nil => exact absurd hpos (by simp)
  | cons a t ih =>
    rw [destroyAll_cons]
    cases t with
    | nil =>
      simp only [List.length_cons, List.length_nil] at hlen
      rw [bandRelease]
      simp only [if_pos (by omega : s.refCount - 1 = 0)]
      rw [destroyAll_nil]
      simp only [SharedHandle.mk.injEq, and_true]
      omega
    | cons b t' =>
      have hne : s.refCount - 1 ≠ 0 := by
        simp only [List.length_cons] at hlen
        push_cast at hlen
        omega
      rw [bandRelease]
      simp only [if_neg hne]
      rw [ih _ (by simp only [List.length_cons] at hlen ⊢; push_cast at hlen ⊢; omega)
        (by simp)]

theorem constructBandAndOverviews_spec (k : Nat) :
    constructBandAndOverviews k = ⟨(k : Int) + 1, 0, false⟩ := by
  have h : ∀ (n : Nat) (s : SharedHandle),
      (List.range n).foldl (fun s _ => overviewAcquire s) s =
        { s with refCount := s.refCount + n } := by
    intro n
    induction n with
    | zero => intro s; simp
    | succ m ih =>
      intro s
      rw [List.range_succ, List.foldl_append]
      simp only [List.foldl_cons, List.foldl_nil, ih]
      simp only [overviewAcquire, SharedHandle.mk.injEq, and_true]
      push_cast
      omega
  rw [constructBandAndOverviews, h]
  simp only [bandAcquire, freshHandle, SharedHandle.mk.injEq, and_true]
  omega

/-- C1: constructing a band and `k` overview objects from an open image
increments the shared counter exactly once per construction (the state
after construction has count k+1 and, after any j of the destructions,
count k+1−j); destroying all of them in an arbitrary order closes the
container, frees the `KEAImageIO` object and frees the counter storage
exactly once, at the last destruction and never earlier. -/
theorem claim_C1_refcount_close_once (k : Nat) (order : List HandleHolder)
    (hperm : order.Perm (allHolders k)) :
    (constructBandAndOverviews k).refCount = (k : Int) + 1 ∧
    (∀ j, j ≤ order.length →
      (destroyAll (order.take j) (constructBandAndOverviews k)).refCount =
        ((k : Int) + 1) - j) ∧
    (∀ j, j < order.length →
      (destroyAll (order.take j) (constructBandAndOverviews k)).closeCalls = 0 ∧
      (destroyAll (order.take j) (constructBandAndOverviews k)).counterFreed = false) ∧
    destroyAll order (constructBandAndOverviews k) =
      { refCount := 0, closeCalls := 1, counterFreed := true } := by
  have hlen : order.length = k + 1 := by
    have := hperm.length_eq
    simpa [allHolders] using this
  have hs0 := constructBandAndOverviews_spec k
  refine ⟨by rw [hs0], ?_, ?_, ?_⟩
  · intro j hj
    rcases Nat.lt_or_ge j order.length with hlt | hge
    · have htk : (order.take j).length = j := by
        rw [List.length_take]
        omega
      rw [destroyAll_of_lt _ _ (by rw [hs0, htk]; push_cast; omega)]
      rw [hs0, htk]
    · have hj' : j = order.length := le_antisymm hj hge
      subst hj'
      rw [List.take_length, destroyAll_exact _ _ (by rw [hs0]; push_cast; omega) (by omega)]
      simp only [hlen]
      push_cast
      omega
  · intro j hj
    have htk : (order.take j).length = j := by
      rw [List.length_take]
      omega
    rw [destroyAll_of_lt _ _ (by rw [hs0, htk]; push_cast; omega)]
    rw [hs0]
    exact ⟨rfl, rfl⟩
  · rw [destroyAll_exact _ _ (by rw [hs0]; push_cast; omega) (by omega), hs0]

/-- Witness for C1: the spec's scenario, a band plus three overviews
destroyed in a mixed order. -/
theorem claim_C1_refcount_close_once_witness :
    ([HandleHolder.overview 1, .band, .overview 2, .overview 0].Perm (allHolders 3)) ∧
    destroyAll [HandleHolder.overview 1, .band, .overview 2, .overview 0]
        (constructBandAndOverviews 3) =
      { refCount := 0, closeCalls := 1, counterFreed := true } := by
  have h : ([HandleHolder.overview 1, .band, .overview 2, .overview 0].Perm (allHolders 3)) := by
    simp only [allHolders, List.range_succ, List.range_zero]
    decide
  exact ⟨h, (claim_C1_refcount_close_once 3 _ h).2.2.2⟩

/-! ## In-memory attribute table (libkea `KEAAttributeTable` as consumed by
KEABand.cpp; declarations in KEAImageIO.h lines 98-100)

Only the integer per-type storage array (`intFields`) is modelled: every
attribute-table operation performed by the claims under verification reads
or writes integer fields only.  A global column index that carries no
column (a gap) is `none`.  `attributeTablePresent` is not modelled: the
table value in hand plays the role of the present table. -/

/-- Scalar type tag of an attribute-table field (libkea). -/
inductive KEAFieldType where
  | kea_att_bool
  | kea_att_int
  | kea_att_float
  | kea_att_string
deriving DecidableEq, Repr

/-- Field descriptor (libkea `KEAATTField` as used by KEABand.cpp): name,
scalar type, usage tag and index into the per-type storage array. -/
structure KEAATTField where
  name : List Char
  dataType : KEAFieldType
  usage : List Char
  idx : Nat
deriving DecidableEq, Repr

/-- In-memory attribute table: columns addressed by global index (with
gaps), the width of the per-feature integer array, and one integer array
per feature (row). -/
structure AttTable where
  cols : List (Option KEAATTField)
  numIntFields : Nat
  rows : List (List Int)
deriving DecidableEq, Repr

/-- Exceptions thrown by the attribute-table operations
(libkea `KEAATTException` and `std::out_of_range` from `at()`). -/
inductive AttExc where
  | fieldNotFound
  | duplicateField
  | outOfRange
deriving DecidableEq, Repr

/-- `getMaxGlobalColIdx()`: one past the highest assigned global index. -/
def getMaxGlobalColIdx (T : AttTable) : Nat := T.cols.length

/-- `getField(globalIndex)`: throws when the index is a gap or out of
range. -/
def getFieldByIdx (T : AttTable) (i : Nat) : Except AttExc KEAATTField :=
  match T.cols.get? i with
  | some (some f) => .ok f
  | _ => .error .fieldNotFound

/-- `getField(name)`: throws when no live column has the name. -/
def getFieldByName (T : AttTable) (nm : List Char) : Except AttExc KEAATTField :=
  match (T.cols.filterMap id).find? (fun f => f.name == nm) with
  | some f => .ok f
  | none => .error .fieldNotFound

/-- Whether a live column with the given name exists. -/
def hasFieldNamed (T : AttTable) (nm : List Char) : Bool :=
  (T.cols.filterMap id).any (fun f => f.name == nm)

/-- `addRows(n)`: appends `n` rows, each cell default-valued (0). -/
def addRows (T : AttTable) (n : Nat) : AttTable :=
  { T with rows := T.rows ++ List.replicate n (List.replicate T.numIntFields 0) }

/-- `addAttIntField(name, default, usage)`: fails on a duplicate name;
otherwise appends an integer column at the next global index, assigns it
the next slot of the integer array, and back-fills every existing row with
the default value. -/
def addAttIntField (T : AttTable) (nm : List Char) (dflt : Int) (usage : List Char) :
    Except AttExc AttTable :=
  if hasFieldNamed T nm then .error .duplicateField
  else .ok { cols := T.cols ++ [some ⟨nm, .kea_att_int, usage, T.numIntFields⟩],
             numIntFields := T.numIntFields + 1,
             rows := T.rows.map (fun r => r ++ [dflt]) }

/-- `feature->intFields->at(i)` (read): throws `std::out_of_range` when out
of bounds. -/
def getIntField (r : List Int) (i : Nat) : Except AttExc Int :=
  match r.get? i with
  | some v => .ok v
  | none => .error .outOfRange

/-- `feature->intFields->at(i) = v` (write): throws when out of bounds. -/
def setIntField (r : List Int) (i : Nat) (v : Int) : Except AttExc (List Int) :=
  if i < r.length then .ok (r.set i v) else .error .outOfRange

/-! ## Histogram metadata string (KEABand.cpp,
SetHistogramFromMetadata lines 1032-1120 and
GetHistogramAsMetadata lines 1122-1179) -/

/-- Whether a character is a decimal digit (as tested by C `atol`). -/
def isDigitC (c : Char) : Bool := 48 ≤ c.toNat && c.toNat ≤ 57

/-- The decimal digit character `'0' + d` produced by `sprintf("%ld")` for
a digit `d < 10` (any larger argument is clamped; callers pass `d < 10`). -/
def digitChar (d : Nat) : Char :=
  match d with
  | 0 => '0' | 1 => '1' | 2 => '2' | 3 => '3' | 4 => '4'
  | 5 => '5' | 6 => '6' | 7 => '7' | 8 => '8' | _ => '9'

/-- Decimal rendering of a natural number, least significant digit last,
as printed by `sprintf("%ld", v)` for `v ≥ 0` (fuel-based recursion; the
fuel `n+1` always suffices). -/
def natToCharsAux : Nat → Nat → List Char
  | 0, _ => []
  | fuel + 1, n =>
    if n < 10 then [digitChar n]
    else natToCharsAux fuel (n / 10) ++ [digitChar (n % 10)]

/-- Decimal rendering of a natural number. -/
def natToChars (n : Nat) : List Char := natToCharsAux (n + 1) n

/-- Decimal rendering of a signed integer as printed by
`sprintf("%ld", v)` (KEABand.cpp line 1165). -/
def intToChars (v : Int) : List Char :=
  if v < 0 then '-' :: natToChars (-v).toNat else natToChars v.toNat

/-- Value of a digit string, most significant digit first. -/
def digitsVal (cs : List Char) : Nat :=
  cs.foldl (fun acc c => acc * 10 + (c.toNat - 48)) 0

/-- Value of the longest digit run at the head of the string. -/
def digitsPrefixVal (cs : List Char) : Nat :=
  digitsVal (cs.takeWhile isDigitC)

/-- Model of C `atol` as called on one histogram segment (KEABand.cpp line
1107): skip leading blanks, read an optional sign, then the longest run of
decimal digits; anything else yields 0. -/
def atolTail : List Char → Int
  | [] => 0
  | c :: rest =>
    if c = '-' then -(digitsPrefixVal rest : Int)
    else if c = '+' then (digitsPrefixVal rest : Int)
    else (digitsPrefixVal (c :: rest) : Int)

def atolM (cs : List Char) : Int :=
  atolTail (cs.dropWhile (fun c => c == ' ' || c == '\t'))

/-- The segment scan of SetHistogramFromMetadata (lines 1041-1050 and
1093-1112): split the string on the pipe delimiter and keep only the
non-empty segments (`if( nStartIndex != nIndex )`).  `cur` is the segment
collected so far, in reverse. -/
def histSegsAux (cur : List Char) : List Char → List (List Char)
  | [] => if cur.isEmpty then [] else [cur.reverse]
  | c :: rest =>
    if c = '|' then
      if cur.isEmpty then histSegsAux [] rest
      else cur.reverse :: histSegsAux [] rest
    else histSegsAux (c :: cur) rest

/-- The non-empty pipe-separated segments of a histogram string. -/
def histSegs (cs : List Char) : List (List Char) := histSegsAux [] cs

/-- The integer sequence a histogram metadata string decodes to: one
integer per non-empty segment, via `atol`. -/
def parseHistogram (cs : List Char) : List Int := (histSegs cs).map atolM

/-- The histogram column descriptor created by SetHistogramFromMetadata on
a table that has no histogram column (KEABand.cpp line 1084), on an
initially empty table. -/
def histogramField : KEAATTField :=
  ⟨"Histogram".data, .kea_att_int, "PixelCount".data, 0⟩

/-- The histogram-column search loop (KEABand.cpp lines 1059-1079 and
1134-1154): scan global indices from 0 while the column has not been
found, skipping gaps, looking for an integer column named "Histogram" with
usage "PixelCount". -/
def findHistogramField (T : AttTable) : Option KEAATTField :=
  (List.range (getMaxGlobalColIdx T)).foldl
    (fun acc i =>
      match acc with
      | some f => some f
      | none =>
        match getFieldByIdx T i with
        | .error _ => none
        | .ok f =>
          if f.dataType == .kea_att_int && f.usage == "PixelCount".data
              && f.name == "Histogram".data
          then some f else none)
    none

/-- The write loop of SetHistogramFromMetadata (lines 1089-1112): write
each decoded value into the integer field `idx` of successive rows. -/
def writeHistValues (idx : Nat) : List Int → List (List Int) → Except AttExc (List (List Int))
  | [], rows => .ok rows
  | _ :: _, [] => .error .outOfRange
  | v :: vs, r :: rs => do
    let r' ← setIntField r idx v
    let rs' ← writeHistValues idx vs rs
    .ok (r' :: rs')

/-- Embedding of `KEARasterBand::SetHistogramFromMetadata` (lines
1032-1120): count the non-empty segments, grow the table to fit, find or
create the histogram column, then write the decoded values into successive
rows. -/
def setHistogramFromMetadata (hist : List Char) (T : AttTable) : Except AttExc AttTable := do
  let nItems := (histSegs hist).length
  let T1 := if T.rows.length < nItems then addRows T (nItems - T.rows.length) else T
  let Tf ← (match findHistogramField T1 with
    | some f => Except.ok (T1, f)
    | none => do
        let T2 ← addAttIntField T1 "Histogram".data 0 "PixelCount".data
        let f ← getFieldByName T2 "Histogram".data
        Except.ok (T2, f))
  let rows2 ← writeHistValues Tf.2.idx (parseHistogram hist) Tf.1.rows
  .ok { Tf.1 with rows := rows2 }

/-- The row loop of GetHistogramAsMetadata (lines 1160-1167): read the
histogram field of every row in order. -/
def readHistColumn (idx : Nat) : List (List Int) → Except AttExc (List Int)
  | [] => .ok []
  | r :: rs => do
    let v ← getIntField r idx
    let vs ← readHistColumn idx rs
    .ok (v :: vs)

/-- Embedding of `KEARasterBand::GetHistogramAsMetadata` (lines 1122-1179):
if the histogram column exists, append `sprintf("%ld|", value)` for every
row in order; otherwise the string stays empty. -/
def getHistogramAsMetadata (T : AttTable) : Except AttExc (List Char) :=
  match findHistogramField T with
  | none => .ok []
  | some f => do
    let vals ← readHistColumn f.idx T.rows
    .ok ((vals.map (fun v => intToChars v ++ ['|'])).flatten)

/-- A table with no columns and no rows, as created by `getAttributeTable`
when no attribute table exists yet for the band. -/
def emptyAttTable : AttTable := ⟨[], 0, []⟩

theorem digitsVal_append (xs : List Char) (c : Char) :
    digitsVal (xs ++ [c]) = digitsVal xs * 10 + (c.toNat - 48) := by
  simp [digitsVal, List.foldl_append]

theorem digitChar_isDigit (d : Nat) : isDigitC (digitChar d) = true := by
  rcases d with _|_|_|_|_|_|_|_|_|d <;> rfl

theorem digitChar_val (d : Nat) (h : d < 10) : (digitChar d).toNat - 48 = d := by
  rcases d with _|_|_|_|_|_|_|_|_|d
  case succ.succ.succ.succ.succ.succ.succ.succ.succ =>
    have hd0 : d = 0 := by omega
    subst hd0
    rfl
  all_goals rfl

theorem natToCharsAux_spec (f : Nat) : ∀ n : Nat, n < 10 ^ (f + 1) →
    natToCharsAux (f + 1) n ≠ [] ∧
    (∀ c ∈ natToCharsAux (f + 1) n, isDigitC c = true) ∧
    digitsVal (natToCharsAux (f + 1) n) = n := by
  induction f with
  | zero =>
    intro n hn
    have h10 : n < 10 := by norm_num at hn; omega
    refine ⟨by simp [natToCharsAux, if_pos h10], ?_, ?_⟩
    · intro c hc
      simp [natToCharsAux, if_pos h10] at hc
      subst hc
      exact digitChar_isDigit n
    · simp [natToCharsAux, if_pos h10, digitsVal, digitChar_val n h10]
  | succ f ih =>
    intro n hn
    by_cases h10 : n < 10
    · refine ⟨by simp [natToCharsAux, if_pos h10], ?_, ?_⟩
      · intro c hc
        simp [natToCharsAux, if_pos h10] at hc
        subst hc
        exact digitChar_isDigit n
      · simp [natToCharsAux, if_pos h10, digitsVal, digitChar_val n h10]
    · have hdiv : n / 10 < 10 ^ (f + 1) := by
        rw [Nat.div_lt_iff_lt_mul (by norm_num)]
        calc n < 10 ^ (f + 1 + 1) := hn
        _ = 10 ^ (f + 1) * 10 := by ring
      obtain ⟨h1, h2, h3⟩ := ih (n / 10) hdiv
      have hun : natToCharsAux (f + 1 + 1) n =
          natToCharsAux (f + 1) (n / 10) ++ [digitChar (n % 10)] := by
        rw [natToCharsAux, if_neg h10]
      refine ⟨by rw [hun]; simp, ?_, ?_⟩
      · intro c hc
        rw [hun] at hc
        rcases List.mem_append.mp hc with h | h
        · exact h2 c h
        · simp at h
          subst h
          exact digitChar_isDigit _
      · rw [hun, digitsVal_append, h3, digitChar_val (n % 10) (Nat.mod_lt _ (by norm_num))]
        omega

theorem natToChars_spec (n : Nat) :
    natToChars n ≠ [] ∧ (∀ c ∈ natToChars n, isDigitC c = true) ∧
    digitsVal (natToChars n) = n := by
  have hn : n < 10 ^ (n + 1) := by
    calc n < 10 ^ n := Nat.lt_pow_self (by norm_num) n
    _ ≤ 10 ^ (n + 1) := Nat.pow_le_pow_right (by norm_num) (by omega)
  exact natToCharsAux_spec n n hn

theorem takeWhile_all {α : Type} {p : α → Bool} (l : List α) (h : ∀ c ∈ l, p c = true) :
    l.takeWhile p = l := by
  induction l with
  | nil => rfl
  | cons c t ih =>
    rw [List.takeWhile_cons, h c (by simp), if_pos rfl,
      ih (fun x hx => h x (by simp [hx]))]

theorem isDigit_ne_of (c : Char) (h : isDigitC c = true) (d : Char)
    (hd : isDigitC d = false) : c ≠ d := by
  intro he
  subst he
  rw [h] at hd
  cases hd

theorem isDigit_not_blank (c : Char) (h : isDigitC c = true) :
    (c == ' ' || c == '\t') = false := by
  simp only [Bool.or_eq_false_iff, beq_eq_false_iff_ne]
  exact ⟨isDigit_ne_of c h ' ' (by decide), isDigit_ne_of c h '\t' (by decide)⟩

theorem digitsPrefixVal_natToChars (n : Nat) : digitsPrefixVal (natToChars n) = n := by
  obtain ⟨h1, h2, h3⟩ := natToChars_spec n
  rw [digitsPrefixVal, takeWhile_all _ h2, h3]

theorem atolTail_cons (c : Char) (rest : List Char) :
    atolTail (c :: rest) =
      if c = '-' then -(digitsPrefixVal rest : Int)
      else if c = '+' then (digitsPrefixVal rest : Int)
      else (digitsPrefixVal (c :: rest) : Int) := rfl

theorem atolM_natToChars (n : Nat) : atolM (natToChars n) = (n : Int) := by
  obtain ⟨h1, h2, h3⟩ := natToChars_spec n
  obtain ⟨c, rest, hc⟩ : ∃ c rest, natToChars n = c :: rest := by
    cases hnc : natToChars n with
    | nil => exact absurd hnc h1
    | cons c rest => exact ⟨c, rest, rfl⟩
  have hdc : isDigitC c = true := h2 c (by rw [hc]; simp)
  rw [atolM, hc, List.dropWhile_cons, isDigit_not_blank c hdc]
  simp only [Bool.false_eq_true, if_false]
  rw [atolTail_cons, if_neg (isDigit_ne_of c hdc '-' (by decide)),
    if_neg (isDigit_ne_of c hdc '+' (by decide)), ← hc, digitsPrefixVal_natToChars]

theorem atolM_intToChars (v : Int) : atolM (intToChars v) = v := by
  by_cases hv : v < 0
  · rw [intToChars, if_pos hv, atolM, List.dropWhile_cons]
    have hp : ((('-' : Char) == ' ') || (('-' : Char) == '\t')) = false := by decide
    rw [hp]
    simp only [Bool.false_eq_true, if_false]
    rw [atolTail_cons, if_pos rfl, digitsPrefixVal_natToChars]
    have : ((-v).toNat : Int) = -v := Int.toNat_of_nonneg (by omega)
    omega
  · rw [intToChars, if_neg hv, atolM_natToChars, Int.toNat_of_nonneg (by omega)]

theorem intToChars_ne_nil (v : Int) : intToChars v ≠ [] := by
  rw [intToChars]
  split
  · simp
  · exact (natToChars_spec _).1

theorem intToChars_no_pipe (v : Int) : ∀ c ∈ intToChars v, c ≠ '|' := by
  intro c hc
  rw [intToChars] at hc
  split at hc
  · rcases List.mem_cons.mp hc with h | h
    · subst h; decide
    · exact isDigit_ne_of c ((natToChars_spec _).2.1 c h) '|' (by decide)
  · exact isDigit_ne_of c ((natToChars_spec _).2.1 c hc) '|' (by decide)

theorem histSegsAux_nil (cur : List Char) :
    histSegsAux cur [] = if cur.isEmpty then [] else [cur.reverse] := rfl

theorem histSegsAux_cons (cur : List Char) (c : Char) (rest : List Char) :
    histSegsAux cur (c :: rest) =
      if c = '|' then
        if cur.isEmpty then histSegsAux [] rest
        else cur.reverse :: histSegsAux [] rest
      else histSegsAux (c :: cur) rest := rfl

theorem histSegsAux_nonpipe (cs : List Char) (h : ∀ c ∈ cs, c ≠ '|') :
    ∀ cur rest : List Char, histSegsAux cur (cs ++ rest) = histSegsAux (cs.reverse ++ cur) rest := by
  induction cs with
  | nil => intro cur rest; simp
  | cons c t ih =>
    intro cur rest
    have hc : c ≠ '|' := h c (by simp)
    rw [List.cons_append, histSegsAux_cons, if_neg hc,
      ih (fun x hx => h x (by simp [hx])) (c :: cur) rest]
    simp [List.append_assoc]

theorem histSegs_encode (vs : List Int) :
    histSegs ((vs.map (fun v => intToChars v ++ ['|'])).flatten) = vs.map intToChars := by
  induction vs with
  | nil => rfl
  | cons v t ih =>
    simp only [List.map_cons, List.flatten_cons, List.append_assoc, List.singleton_append]
    rw [histSegs, histSegsAux_nonpipe (intToChars v) (intToChars_no_pipe v) [] _,
      List.append_nil, histSegsAux_cons, if_pos rfl]
    have hne : (intToChars v).reverse.isEmpty = false := by
      simp [List.isEmpty_iff, intToChars_ne_nil v]
    rw [hne]
    simp only [Bool.false_eq_true, if_false, List.reverse_reverse]
    rw [← histSegs, ih]

theorem parseHistogram_encode (vs : List Int) :
    parseHistogram ((vs.map (fun v => intToChars v ++ ['|'])).flatten) = vs := by
  rw [parseHistogram, histSegs_encode, List.map_map]
  have : atolM ∘ intToChars = id := by
    funext v
    exact atolM_intToChars v
  rw [this, List.map_id]

theorem exc_bind_ok {α β : Type} (a : α) (f : α → Except AttExc β) :
    (Except.ok a >>= f) = f a := rfl

theorem writeHist_replicate (vs : List Int) :
    writeHistValues 0 vs (List.replicate vs.length [0]) = .ok (vs.map (fun v => [v])) := by
  induction vs with
  | nil => rfl
  | cons v t ih =>
    rw [List.length_cons, List.replicate_succ]
    simp only [writeHistValues, setIntField, List.length_singleton]
    rw [if_pos (by omega)]
    simp only [List.set, exc_bind_ok, ih, List.map_cons]

theorem findHist_emptycols (n : Nat) (rows : List (List Int)) :
    findHistogramField ⟨[], n, rows⟩ = none := rfl

theorem findHist_histTable (n : Nat) (rows : List (List Int)) :
    findHistogramField ⟨[some histogramField], n, rows⟩ = some histogramField := rfl

theorem setHist_empty (s : List Char) :
    setHistogramFromMetadata s emptyAttTable =
      .ok ⟨[some histogramField], 1, (parseHistogram s).map (fun v => [v])⟩ := by
  have hlen : (parseHistogram s).length = (histSegs s).length := by
    rw [parseHistogram, List.length_map]
  have hT1 : (if emptyAttTable.rows.length < (histSegs s).length
      then addRows emptyAttTable ((histSegs s).length - emptyAttTable.rows.length)
      else emptyAttTable) = ⟨[], 0, List.replicate (histSegs s).length []⟩ := by
    rcases Nat.eq_zero_or_pos (histSegs s).length with h0 | hpos
    · rw [h0]
      simp [emptyAttTable]
    · rw [if_pos (by simp [emptyAttTable]; omega)]
      simp [addRows, emptyAttTable]
  have hadd : addAttIntField ⟨[], 0, List.replicate (histSegs s).length []⟩
      "Histogram".data 0 "PixelCount".data =
      .ok ⟨[some histogramField], 1, List.replicate (histSegs s).length [0]⟩ := by
    simp [addAttIntField, hasFieldNamed, histogramField, List.map_replicate]
  have hget : getFieldByName
      (⟨[some histogramField], 1, List.replicate (histSegs s).length [0]⟩ : AttTable)
      "Histogram".data = .ok histogramField := by
    simp [getFieldByName, histogramField]
  rw [setHistogramFromMetadata, hT1, findHist_emptycols, hadd]
  simp only [exc_bind_ok, hget]
  have hw : writeHistValues histogramField.idx (parseHistogram s)
      (List.replicate (histSegs s).length [0]) = .ok ((parseHistogram s).map (fun v => [v])) := by
    rw [show histogramField.idx = 0 from rfl, ← hlen, writeHist_replicate]
  rw [hw]
  rfl

theorem readHistColumn_single (vs : List Int) :
    readHistColumn 0 (vs.map (fun v => [v])) = .ok vs := by
  induction vs with
  | nil => rfl
  | cons v t ih =>
    simp only [List.map_cons, readHistColumn, getIntField, List.get?, exc_bind_ok, ih]

theorem getHist_vec (vs : List Int) :
    getHistogramAsMetadata ⟨[some histogramField], 1, vs.map (fun v => [v])⟩ =
      .ok ((vs.map (fun v => intToChars v ++ ['|'])).flatten) := by
  have h : readHistColumn histogramField.idx (vs.map (fun v => [v])) = .ok vs :=
    readHistColumn_single vs
  rw [getHistogramAsMetadata, findHist_histTable]
  change (do
    let vals ← readHistColumn histogramField.idx (vs.map (fun v => [v]))
    Except.ok ((vals.map (fun v => intToChars v ++ ['|'])).flatten)) = _
  rw [h, exc_bind_ok]

/-- C3: encoding the histogram column values [3,0,7] produces "3|0|7|";
decoding any of "3|0|7|", "3|0|7", "3||0||7" stores the integers 3, 0, 7
into successive rows, skipping empty segments rather than producing a zero
row (with pre-existing rows beyond the decoded items left untouched); and
decode-then-encode reproduces the same value sequence for every
pipe-separated integer string. -/
theorem claim_C3_histogram_roundtrip :
    getHistogramAsMetadata ⟨[some histogramField], 1, [[3], [0], [7]]⟩ = .ok "3|0|7|".data ∧
    setHistogramFromMetadata "3|0|7|".data emptyAttTable =
      .ok ⟨[some histogramField], 1, [[3], [0], [7]]⟩ ∧
    setHistogramFromMetadata "3|0|7".data emptyAttTable =
      .ok ⟨[some histogramField], 1, [[3], [0], [7]]⟩ ∧
    setHistogramFromMetadata "3||0||7".data emptyAttTable =
      .ok ⟨[some histogramField], 1, [[3], [0], [7]]⟩ ∧
    setHistogramFromMetadata "3||0||7".data
        ⟨[some histogramField], 1, [[9], [9], [9], [9], [9]]⟩ =
      .ok ⟨[some histogramField], 1, [[3], [0], [7], [9], [9]]⟩ ∧
    (∀ s : List Char, ∃ T out,
      setHistogramFromMetadata s emptyAttTable = .ok T ∧
      getHistogramAsMetadata T = .ok out ∧
      parseHistogram out = parseHistogram s) := by
  refine ⟨rfl, rfl, rfl, rfl, rfl, ?_⟩
  intro s
  exact ⟨_, _, setHist_empty s, getHist_vec (parseHistogram s),
    parseHistogram_encode (parseHistogram s)⟩

/-! ## Overview creation (KEABand.cpp, CreateOverviews lines 129-154,
GetOverviewCount lines 1014-1017) -/

/-- An in-memory overview object as constructed by CreateOverviews
(line 151): the 1-based overview index and the reduced sizes passed to the
`KEAOverview` constructor. -/
structure OverviewObj where
  index : Nat
  xsize : Nat
  ysize : Nat
deriving DecidableEq, Repr

/-- The externally visible actions of CreateOverviews, in program order. -/
inductive OvEvent where
  | deleteOldObjects
  | containerCreate (index xsize ysize : Nat)
  | objectCreate (index xsize ysize : Nat)
deriving DecidableEq, Repr

/-- The loop of CreateOverviews (lines 140-153) with loop counter `k`
(`nCount`): compute the reduced size by integer division, call
`m_pImageIO->createOverview` (line 148), then construct the in-memory
`KEAOverview` object with the same index and sizes (line 151). -/
def createOverviewsLoop (W H : Nat) : Nat → List Nat → List OvEvent × List OverviewObj
  | _, [] => ([], [])
  | k, f :: fs =>
    let x := W / f
    let y := H / f
    let rest := createOverviewsLoop W H (k + 1) fs
    (.containerCreate (k + 1) x y :: .objectCreate (k + 1) x y :: rest.1,
     ⟨k + 1, x, y⟩ :: rest.2)

/-- Embedding of `KEARasterBand::CreateOverviews` (lines 129-154): delete
the previous in-memory overview objects first (line 132), then run the
creation loop.  Returns the event trace and the new overview list. -/
def createOverviews (W H : Nat) (factors : List Nat) : List OvEvent × List OverviewObj :=
  (.deleteOldObjects :: (createOverviewsLoop W H 0 factors).1,
   (createOverviewsLoop W H 0 factors).2)

/-- `KEARasterBand::GetOverviewCount` (lines 1014-1017). -/
def getOverviewCount (objs : List OverviewObj) : Nat := objs.length

theorem createOverviewsLoop_spec (W H : Nat) : ∀ (fs : List Nat) (k : Nat),
    (createOverviewsLoop W H k fs).1.length = 2 * fs.length ∧
    (createOverviewsLoop W H k fs).2.length = fs.length ∧
    ∀ j f, fs.get? j = some f →
      (createOverviewsLoop W H k fs).1.get? (2 * j) =
        some (.containerCreate (k + j + 1) (W / f) (H / f)) ∧
      (createOverviewsLoop W H k fs).1.get? (2 * j + 1) =
        some (.objectCreate (k + j + 1) (W / f) (H / f)) ∧
      (createOverviewsLoop W H k fs).2.get? j = some ⟨k + j + 1, W / f, H / f⟩ := by
  intro fs
  induction fs with
  | nil =>
    intro k
    refine ⟨rfl, rfl, ?_⟩
    intro j f hj
    simp at hj
  | cons f0 fs ih =>
    intro k
    refine ⟨by simp [createOverviewsLoop, (ih (k + 1)).1]; ring,
      by simp [createOverviewsLoop, (ih (k + 1)).2.1], ?_⟩
    intro j f hj
    cases j with
    | zero =>
      simp only [List.get?] at hj
      cases hj
      simp [createOverviewsLoop]
    | succ j =>
      simp only [List.get?] at hj
      obtain ⟨h1, h2, h3⟩ := (ih (k + 1)).2.2 j f hj
      have e2 : 2 * (j + 1) = (2 * j + 1) + 1 := by ring
      refine ⟨?_, ?_, ?_⟩
      · rw [e2]
        simp only [createOverviewsLoop, List.get?]
        rw [h1]
        congr 2
        omega
      · rw [e2]
        simp only [createOverviewsLoop, List.get?]
        rw [h2]
        congr 2
        omega
      · simp only [createOverviewsLoop, List.get?]
        rw [h3]
        congr 2
        omega

/-- C5: CreateOverviews first releases the previous in-memory overview
objects, then for each 0-based position k with factor f creates a
container-side overview of size ⌊W/f⌋ × ⌊H/f⌋ at 1-based index k+1,
immediately followed by the matching in-memory object; afterwards
GetOverviewCount returns the number of factors; for [2,4] on a 100×100
band: overview 1 at 50×50, overview 2 at 25×25, count 2. -/
theorem claim_C5_create_overviews (W H : Nat) (factors : List Nat)
    (_hpos : ∀ f ∈ factors, 0 < f) :
    (createOverviews W H factors).1.get? 0 = some .deleteOldObjects ∧
    (createOverviews W H factors).1.length = 2 * factors.length + 1 ∧
    (∀ k f, factors.get? k = some f →
      (createOverviews W H factors).1.get? (2 * k + 1) =
        some (.containerCreate (k + 1) (W / f) (H / f)) ∧
      (createOverviews W H factors).1.get? (2 * k + 2) =
        some (.objectCreate (k + 1) (W / f) (H / f)) ∧
      (createOverviews W H factors).2.get? k = some ⟨k + 1, W / f, H / f⟩) ∧
    getOverviewCount (createOverviews W H factors).2 = factors.length ∧
    (createOverviews 100 100 [2, 4]).2 = [⟨1, 50, 50⟩, ⟨2, 25, 25⟩] ∧
    getOverviewCount (createOverviews 100 100 [2, 4]).2 = 2 := by
  obtain ⟨hl1, hl2, hget⟩ := createOverviewsLoop_spec W H factors 0
  refine ⟨rfl, by simp [createOverviews, hl1], ?_, by simp [createOverviews, getOverviewCount, hl2],
    by decide, by decide⟩
  intro k f hk
  obtain ⟨h1, h2, h3⟩ := hget k f hk
  refine ⟨?_, ?_, ?_⟩
  · show (createOverviewsLoop W H 0 factors).1.get? (2 * k) = _
    rw [h1]
    congr 3
    omega
  · show (createOverviewsLoop W H 0 factors).1.get? (2 * k + 1) = _
    rw [h2]
    congr 3
    omega
  · show (createOverviewsLoop W H 0 factors).2.get? k = _
    rw [h3]
    congr 2
    omega

/-- Witness for C5: the spec's scenario, factors [2,4] on a 100×100 band. -/
theorem claim_C5_create_overviews_witness :
    (∀ f ∈ [2, 4], 0 < f) ∧
    (createOverviews 100 100 [2, 4]).2 = [⟨1, 50, 50⟩, ⟨2, 25, 25⟩] ∧
    getOverviewCount (createOverviews 100 100 [2, 4]).2 = 2 := by
  have h := claim_C5_create_overviews 100 100 [2, 4] (by decide)
  exact ⟨by decide, h.2.2.2.2.1, h.2.2.2.2.2⟩

/-! ## Constructor failure and the reference count (KEABand.cpp lines
40-71) -/

/-- The container operations the `KEARasterBand` constructor invokes,
each of which can throw `KEAIOException` (declared so in KEAImageIO.h). -/
inductive BandCtorStep where
  | getImageBandDataType
  | getImageBlockSize
  | getImageBandDescription
  | getImageBandMetaData
deriving DecidableEq, Repr

/-- Embedding of the refcount effect of the `KEARasterBand` constructor
(lines 40-71): `getImageBandDataType` (line 44) and `getImageBlockSize`
(lines 46-47) run before the counter increment at line 56;
`getImageBandDescription` (line 63) and `getImageBandMetaData` (line 104,
reached through `UpdateMetadataList()` at line 70) run after it.  The
constructor has no try/catch, so an exception from any of these propagates
out; by C++ semantics the destructor of the partially constructed object
never runs.  `.error rc` gives the counter value left behind by a throwing
construction attempt; `.ok rc` the value after a successful one. -/
def bandCtorRefCount (failAt : Option BandCtorStep) (rc : Int) : Except Int Int :=
  match failAt with
  | some .getImageBandDataType => .error rc
  | some .getImageBlockSize => .error rc
  | some .getImageBandDescription => .error (rc + 1)
  | some .getImageBandMetaData => .error (rc + 1)
  | none => .ok (rc + 1)

/-- C6 (code bug): when `getImageBandDescription` (line 63) or the
metadata read inside `UpdateMetadataList` (line 70) throws, the
construction attempt fails but the counter is left at rc+1, not at its
pre-construction value rc — the claimed invariant fails on those paths. -/
theorem claim_C6_ctor_refcount_leak :
    ∀ rc : Int,
      bandCtorRefCount (some .getImageBandDescription) rc = .error (rc + 1) ∧
      bandCtorRefCount (some .getImageBandMetaData) rc = .error (rc + 1) ∧
      rc + 1 ≠ rc := by
  intro rc
  exact ⟨rfl, rfl, by omega⟩

/-! ## GetColorInterpretation and the uninitialized switch operand
(KEABand.cpp lines 844-910) -/

/-- The band usage tags of libkea (`KEALayerUsage`), as enumerated by the
switches in GetColorInterpretation / SetColorInterpretation
(lines 857-908 and 915-968). -/
inductive KEALayerUsage where
  | kea_generic
  | kea_greyindex
  | kea_paletteindex
  | kea_redband
  | kea_greenband
  | kea_blueband
  | kea_alphaband
  | kea_hueband
  | kea_saturationband
  | kea_lightnessband
  | kea_cyanband
  | kea_magentaband
  | kea_yellowband
  | kea_blackband
  | kea_ycbcr_yband
  | kea_ycbcr_cbband
  | kea_ycbcr_crband
deriving DecidableEq, Repr

/-- Embedding of `KEARasterBand::GetColorInterpretation` (lines 844-910)
up to the switch: the local `keainterp` (line 846) is declared without an
initializer, modelled as `Option KEALayerUsage` with `none` for
"uninitialized".  The try-block (lines 847-854) evaluates
`this->m_pImageIO->getImageBandUsage(this->nBand)` but discards the
result — line 849 is a bare expression statement, not an assignment — so
`keainterp` is never written.  On exception the function returns
GCI_GrayIndex early (modelled `none`); otherwise the switch at line 857
reads `keainterp` (modelled `some` of the value it holds there). -/
def getColorInterpSwitchOperand (usageLookup : Except Unit KEALayerUsage) :
    Option (Option KEALayerUsage) :=
  match usageLookup with
  | .error _ => none
  | .ok _ => some none

/-- C10 (code bug): for every band whose stored usage lookup succeeds, the
value the switch reads is the uninitialized marker, never the stored
usage — the switch operand is read before any assignment, so the result is
not the claimed well-defined function of the stored usage tag. -/
theorem claim_C10_uninitialized_switch_operand :
    ∀ u : KEALayerUsage,
      getColorInterpSwitchOperand (.ok u) = some none ∧
      getColorInterpSwitchOperand (.ok u) ≠ some (some u) := by
  intro u
  exact ⟨rfl, by simp [getColorInterpSwitchOperand]⟩

/-! ## Band metadata (KEABand.cpp, UpdateMetadataList lines 99-126,
SetMetadataItem lines 243-280, GetMetadataItem lines 283-290, GetMetadata
lines 293-300, SetMetadata lines 303-352)

Container-level I/O failures (`KEAIOException` from `setImageBandMetaData`
or `setImageBandLayerType`, caught at lines 276-279 and 343-346) are not
modelled: the container is treated as a non-failing primitive here, as the
claims under verification concern key routing and domain handling only. -/

/-- Thematic/continuous flag (libkea `KEALayerType`). -/
inductive KEALayerType where
  | kea_continuous
  | kea_thematic
deriving DecidableEq, Repr

/-- GDAL `CPLErr` results returned by the metadata operations. -/
inductive CPLErr where
  | CE_None
  | CE_Failure
deriving DecidableEq, Repr

/-- Uppercase an ASCII letter; CPL's `EQUAL` compares case-insensitively. -/
def upperC (c : Char) : Char :=
  if 97 ≤ c.toNat ∧ c.toNat ≤ 122 then Char.ofNat (c.toNat - 32) else c

/-- CPL `EQUAL`: ASCII case-insensitive string equality. -/
def eqCI (a b : List Char) : Bool := a.map upperC == b.map upperC

/-- Per-band state touched by the metadata operations: the stored layer
type, the band's attribute table (where the histogram column lives), the
persisted per-band string map written through `setImageBandMetaData`, and
the in-memory `m_papszMetadataList` CSL list. -/
structure BandMetaState where
  layerType : KEALayerType
  table : AttTable
  bandMeta : List (List Char × List Char)
  metadataList : List (List Char × List Char)
deriving DecidableEq, Repr

/-- `setImageBandMetaData`: store name=value in the persisted per-band
map, overwriting an existing entry of the same name. -/
def mapSet (m : List (List Char × List Char)) (n v : List Char) :
    List (List Char × List Char) :=
  match m with
  | [] => [(n, v)]
  | (k, w) :: rest => if k == n then (k, v) :: rest else (k, w) :: mapSet rest n v

/-- CPL `CSLSetNameValue`: replace the first entry whose name matches
case-insensitively, else append. -/
def cslSetNameValue (m : List (List Char × List Char)) (n v : List Char) :
    List (List Char × List Char) :=
  match m with
  | [] => [(n, v)]
  | (k, w) :: rest => if eqCI k n then (n, v) :: rest else (k, w) :: cslSetNameValue rest n v

/-- CPL `CSLFetchNameValue`: first value whose name matches
case-insensitively. -/
def cslFetchNameValue (m : List (List Char × List Char)) (n : List Char) :
    Option (List Char) :=
  match m with
  | [] => none
  | (k, w) :: rest => if eqCI k n then some w else cslFetchNameValue rest n

/-- The domain test used by all four metadata methods (e.g. lines
246-247): `( pszDomain != NULL ) && ( *pszDomain != '\0' )`. -/
def domainRejected (domain : Option (List Char)) : Bool :=
  match domain with
  | some (_ :: _) => true
  | _ => false

/-- `SetHistogramFromMetadata` catches `KEAException` internally (lines
1116-1119), so a failing decode leaves the persisted table as it was. -/
def setHistogramFromMetadataCaught (hist : List Char) (T : AttTable) : AttTable :=
  match setHistogramFromMetadata hist T with
  | .ok T2 => T2
  | .error _ => T

/-- Embedding of `KEARasterBand::SetMetadataItem` (lines 243-280): reject
non-default domains; route LAYER_TYPE to `setImageBandLayerType`
("athematic" maps to continuous, anything else to thematic),
STATISTICS_HISTOBINVALUES to `SetHistogramFromMetadata`, and every other
key to `setImageBandMetaData` unchanged; finally update the CSL list. -/
def setMetadataItemBand (st : BandMetaState) (nm v : List Char)
    (domain : Option (List Char)) : CPLErr × BandMetaState :=
  if domainRejected domain then (.CE_Failure, st)
  else if eqCI nm "LAYER_TYPE".data then
    let lt := if eqCI v "athematic".data then KEALayerType.kea_continuous else .kea_thematic
    (.CE_None, { st with layerType := lt,
                         metadataList := cslSetNameValue st.metadataList nm v })
  else if eqCI nm "STATISTICS_HISTOBINVALUES".data then
    (.CE_None, { st with table := setHistogramFromMetadataCaught v st.table,
                         metadataList := cslSetNameValue st.metadataList nm v })
  else
    (.CE_None, { st with bandMeta := mapSet st.bandMeta nm v,
                         metadataList := cslSetNameValue st.metadataList nm v })

/-- Embedding of `KEARasterBand::GetMetadataItem` (lines 283-290). -/
def getMetadataItemBand (st : BandMetaState) (nm : List Char)
    (domain : Option (List Char)) : Option (List Char) :=
  if domainRejected domain then none
  else cslFetchNameValue st.metadataList nm

/-- Embedding of `KEARasterBand::GetMetadata` (lines 293-300). -/
def getMetadataBand (st : BandMetaState) (domain : Option (List Char)) :
    Option (List (List Char × List Char)) :=
  if domainRejected domain then none
  else some st.metadataList

/-- The per-entry loop of `KEARasterBand::SetMetadata` (lines 313-341),
with the same key routing as SetMetadataItem. -/
def setMetadataLoop (st : BandMetaState) :
    List (List Char × List Char) → BandMetaState
  | [] => st
  | (nm, v) :: rest =>
    if eqCI nm "LAYER_TYPE".data then
      setMetadataLoop { st with layerType :=
        (if eqCI v "athematic".data then KEALayerType.kea_continuous
         else KEALayerType.kea_thematic) } rest
    else if eqCI nm "STATISTICS_HISTOBINVALUES".data then
      setMetadataLoop { st with table := setHistogramFromMetadataCaught v st.table } rest
    else
      setMetadataLoop { st with bandMeta := mapSet st.bandMeta nm v } rest

/-- Embedding of `KEARasterBand::SetMetadata` (lines 303-352): reject
non-default domains, route every entry, then replace the CSL list with a
duplicate of the one passed in (lines 349-350). -/
def setMetadataBand (st : BandMetaState) (entries : List (List Char × List Char))
    (domain : Option (List Char)) : CPLErr × BandMetaState :=
  if domainRejected domain then (.CE_Failure, st)
  else
    let st2 := setMetadataLoop st entries
    (.CE_None, { st2 with metadataList := entries })

/-- The LAYER_TYPE value surfaced by `UpdateMetadataList` (lines 110-119):
"athematic" when the stored layer type is continuous, else "thematic". -/
def layerTypeMetadataValue (lt : KEALayerType) : List Char :=
  if lt == .kea_continuous then "athematic".data else "thematic".data

/-- C7: SetMetadataItem routes LAYER_TYPE to the stored layer type
("athematic" maps to continuous, any other value to thematic) and
STATISTICS_HISTOBINVALUES into the attribute-table histogram column;
neither is written into the plain per-band string map, while every other
key is passed through to `setImageBandMetaData` unchanged; and the value
UpdateMetadataList surfaces under LAYER_TYPE is always exactly one of the
two literals "athematic"/"thematic". -/
theorem claim_C7_metadata_key_routing :
    (∀ (st : BandMetaState) (nm v : List Char),
      (setMetadataItemBand st nm v none).1 = .CE_None ∧
      (setMetadataItemBand st nm v none).2.bandMeta =
        (if eqCI nm "LAYER_TYPE".data || eqCI nm "STATISTICS_HISTOBINVALUES".data
         then st.bandMeta else mapSet st.bandMeta nm v) ∧
      (setMetadataItemBand st nm v none).2.layerType =
        (if eqCI nm "LAYER_TYPE".data
         then (if eqCI v "athematic".data then .kea_continuous else .kea_thematic)
         else st.layerType) ∧
      (setMetadataItemBand st nm v none).2.table =
        (if eqCI nm "LAYER_TYPE".data then st.table
         else if eqCI nm "STATISTICS_HISTOBINVALUES".data
         then setHistogramFromMetadataCaught v st.table else st.table)) ∧
    (∀ lt, layerTypeMetadataValue lt = "athematic".data ∨
      layerTypeMetadataValue lt = "thematic".data) ∧
    (∀ lt, layerTypeMetadataValue lt = "athematic".data ↔ lt = .kea_continuous) := by
  refine ⟨?_, ?_, ?_⟩
  · intro st nm v
    by_cases h1 : eqCI nm "LAYER_TYPE".data
    · simp [setMetadataItemBand, domainRejected, h1]
    · by_cases h2 : eqCI nm "STATISTICS_HISTOBINVALUES".data
      · simp [setMetadataItemBand, domainRejected, h1, h2]
      · simp [setMetadataItemBand, domainRejected, h1, h2]
  · intro lt
    cases lt
    · left; rfl
    · right; rfl
  · intro lt
    cases lt
    · simp [layerTypeMetadataValue]
    · simp only [layerTypeMetadataValue]
      norm_num

/-- C8 counterexample: a write naming a non-empty domain is not "treated
as not applicable": SetMetadataItem returns the failure code CE_Failure. -/
theorem claim_C8_counterexample :
    (setMetadataItemBand ⟨.kea_thematic, emptyAttTable, [], []⟩ "foo".data "bar".data
      (some "xyz".data)).1 = .CE_Failure ∧
    CPLErr.CE_Failure ≠ CPLErr.CE_None := by
  exact ⟨rfl, by decide⟩

/-- C8 (amended): for every metadata operation invoked with a non-empty
domain name, reads return an absent result, writes return CE_Failure, and
in every case the state is left unchanged. -/
theorem claim_C8_nondefault_domain (st : BandMetaState) (nm v : List Char)
    (entries : List (List Char × List Char)) (domain : Option (List Char))
    (h : domainRejected domain = true) :
    getMetadataItemBand st nm domain = none ∧
    getMetadataBand st domain = none ∧
    setMetadataItemBand st nm v domain = (.CE_Failure, st) ∧
    setMetadataBand st entries domain = (.CE_Failure, st) := by
  refine ⟨?_, ?_, ?_, ?_⟩ <;>
    simp [getMetadataItemBand, getMetadataBand, setMetadataItemBand, setMetadataBand, h]

/-- Witness for the amended C8 at the concrete domain "xyz". -/
theorem claim_C8_nondefault_domain_witness :
    domainRejected (some "xyz".data) = true ∧
    getMetadataItemBand ⟨.kea_thematic, emptyAttTable, [], []⟩ "foo".data
      (some "xyz".data) = none := by
  exact ⟨rfl,
    (claim_C8_nondefault_domain ⟨.kea_thematic, emptyAttTable, [], []⟩ "foo".data "bar".data
      [] (some "xyz".data) rfl).1⟩

/-! ## Column enumeration with gaps (KEABand.cpp: GetDefaultRAT lines
405-462, GetColorTable lines 664-702, SetColorTable lines 756-784, and the
histogram-column search) -/

/-- The slots of `vecKEAField(4)` in GetColorTable/SetColorTable: a
default-constructed `KEAATTField` has an empty usage, which the code uses
as "not found"; modelled as `none`. -/
structure RGBASlots where
  red : Option KEAATTField
  green : Option KEAATTField
  blue : Option KEAATTField
  alpha : Option KEAATTField
deriving DecidableEq, Repr

/-- All four slots empty, as after `vecKEAField(4)` default construction. -/
def noSlots : RGBASlots := ⟨none, none, none, none⟩

/-- One step of the color-column scan of GetColorTable (lines 677-691):
an integer field fills the slot its usage names (four independent ifs). -/
def colorScanStepGet (acc : RGBASlots) (f : KEAATTField) : RGBASlots :=
  if f.dataType == .kea_att_int then
    { red := if f.usage == "Red".data then some f else acc.red,
      green := if f.usage == "Green".data then some f else acc.green,
      blue := if f.usage == "Blue".data then some f else acc.blue,
      alpha := if f.usage == "Alpha".data then some f else acc.alpha }
  else acc

/-- One step of the color-column scan of SetColorTable (lines 769-783):
same as the Get scan but written as an else-if chain. -/
def colorScanStepSet (acc : RGBASlots) (f : KEAATTField) : RGBASlots :=
  if f.dataType == .kea_att_int then
    if f.usage == "Red".data then { acc with red := some f }
    else if f.usage == "Green".data then { acc with green := some f }
    else if f.usage == "Blue".data then { acc with blue := some f }
    else if f.usage == "Alpha".data then { acc with alpha := some f }
    else acc
  else acc

/-- The color-column scan of GetColorTable (lines 664-693): iterate the
global indices, skipping FieldNotFound. -/
def scanColorFieldsGet (T : AttTable) : RGBASlots :=
  (List.range (getMaxGlobalColIdx T)).foldl
    (fun acc i =>
      match getFieldByIdx T i with
      | .error _ => acc
      | .ok f => colorScanStepGet acc f) noSlots

/-- The color-column scan of SetColorTable (lines 756-784). -/
def scanColorFieldsSet (T : AttTable) : RGBASlots :=
  (List.range (getMaxGlobalColIdx T)).foldl
    (fun acc i =>
      match getFieldByIdx T i with
      | .error _ => acc
      | .ok f => colorScanStepSet acc f) noSlots

/-- The column collection loop of GetDefaultRAT (lines 405-462): scan all
global indices, skip FieldNotFound, collect remaining fields in order
(each becomes a GDAL RAT column; every scalar type maps to a GDAL type). -/
def collectRATFields (T : AttTable) : List KEAATTField :=
  (List.range (getMaxGlobalColIdx T)).foldl
    (fun acc i =>
      match getFieldByIdx T i with
      | .error _ => acc
      | .ok f => acc ++ [f]) []

theorem getFieldByIdx_cons_succ (c : Option KEAATTField) (cs : List (Option KEAATTField))
    (n : Nat) (rows : List (List Int)) (i : Nat) :
    getFieldByIdx ⟨c :: cs, n, rows⟩ (i + 1) = getFieldByIdx ⟨cs, n, rows⟩ i := rfl

/-- Bridge: a loop over global indices 0..maxGlobalColIdx that treats
FieldNotFound as "skip" equals a fold over the column list itself. -/
theorem range_foldl_cols {β : Type} (G : β → Option KEAATTField → β) :
    ∀ (cols : List (Option KEAATTField)) (n : Nat) (rows : List (List Int)) (init : β),
      (List.range cols.length).foldl
        (fun acc i =>
          match getFieldByIdx ⟨cols, n, rows⟩ i with
          | .error _ => G acc none
          | .ok f => G acc (some f)) init
      = cols.foldl G init := by
  intro cols
  induction cols with
  | nil => intro n rows init; rfl
  | cons c cs ih =>
    intro n rows init
    rw [List.length_cons, List.range_succ_eq_map, List.foldl_cons, List.foldl_map]
    have hstep : ∀ acc i,
        (match getFieldByIdx ⟨c :: cs, n, rows⟩ (i + 1) with
          | .error _ => G acc none
          | .ok f => G acc (some f)) =
        (match getFieldByIdx ⟨cs, n, rows⟩ i with
          | .error _ => G acc none
          | .ok f => G acc (some f)) := by
      intro acc i
      rw [getFieldByIdx_cons_succ]
    have h0 : (match getFieldByIdx ⟨c :: cs, n, rows⟩ 0 with
        | .error _ => G init none
        | .ok f => G init (some f)) = G init c := by
      cases c <;> rfl
    rw [h0]
    calc (List.range cs.length).foldl
          (fun acc i =>
            match getFieldByIdx ⟨c :: cs, n, rows⟩ (i + 1) with
            | .error _ => G acc none
            | .ok f => G acc (some f)) (G init c)
        = (List.range cs.length).foldl
          (fun acc i =>
            match getFieldByIdx ⟨cs, n, rows⟩ i with
            | .error _ => G acc none
            | .ok f => G acc (some f)) (G init c) := by
          exact List.foldl_ext _ _ _ (fun acc i _ => hstep acc i)
      _ = cs.foldl G (G init c) := ih n rows (G init c)
      _ = (c :: cs).foldl G init := rfl

/-- Skipping a gap: a fold whose step ignores `none` gives the same result
with the gap removed. -/
theorem foldl_gap {β : Type} (G : β → Option KEAATTField → β)
    (hG : ∀ acc, G acc none = acc) (l1 l2 : List (Option KEAATTField)) (init : β) :
    (l1 ++ none :: l2).foldl G init = (l1 ++ l2).foldl G init := by
  rw [List.foldl_append, List.foldl_append, List.foldl_cons, hG]

/-- The step functions of the four scans, as folds over the column list. -/
def ratCollectG (acc : List KEAATTField) : Option KEAATTField → List KEAATTField
  | none => acc
  | some f => acc ++ [f]

def colorGetG (acc : RGBASlots) : Option KEAATTField → RGBASlots
  | none => acc
  | some f => colorScanStepGet acc f

def colorSetG (acc : RGBASlots) : Option KEAATTField → RGBASlots
  | none => acc
  | some f => colorScanStepSet acc f

def histFindG (acc : Option KEAATTField) : Option KEAATTField → Option KEAATTField
  | none => acc
  | some f =>
    match acc with
    | some g => some g
    | none =>
      if f.dataType == .kea_att_int && f.usage == "PixelCount".data
          && f.name == "Histogram".data
      then some f else none

theorem collectRATFields_eq_foldl (T : AttTable) :
    collectRATFields T = T.cols.foldl ratCollectG [] := by
  obtain ⟨cols, n, rows⟩ := T
  rw [collectRATFields, getMaxGlobalColIdx, ← range_foldl_cols ratCollectG cols n rows []]
  apply List.foldl_ext
  intro acc i _
  cases h : getFieldByIdx ⟨cols, n, rows⟩ i <;> rfl

theorem scanColorFieldsGet_eq_foldl (T : AttTable) :
    scanColorFieldsGet T = T.cols.foldl colorGetG noSlots := by
  obtain ⟨cols, n, rows⟩ := T
  rw [scanColorFieldsGet, getMaxGlobalColIdx, ← range_foldl_cols colorGetG cols n rows noSlots]
  apply List.foldl_ext
  intro acc i _
  cases h : getFieldByIdx ⟨cols, n, rows⟩ i <;> rfl

theorem scanColorFieldsSet_eq_foldl (T : AttTable) :
    scanColorFieldsSet T = T.cols.foldl colorSetG noSlots := by
  obtain ⟨cols, n, rows⟩ := T
  rw [scanColorFieldsSet, getMaxGlobalColIdx, ← range_foldl_cols colorSetG cols n rows noSlots]
  apply List.foldl_ext
  intro acc i _
  cases h : getFieldByIdx ⟨cols, n, rows⟩ i <;> rfl

theorem findHistogramField_eq_foldl (T : AttTable) :
    findHistogramField T = T.cols.foldl histFindG none := by
  obtain ⟨cols, n, rows⟩ := T
  rw [findHistogramField, getMaxGlobalColIdx, ← range_foldl_cols histFindG cols n rows none]
  apply List.foldl_ext
  intro acc i _
  cases h : getFieldByIdx ⟨cols, n, rows⟩ i
  · cases acc <;> rfl
  · cases acc <;> rfl

/-- C9: a global index at which `getField` fails with FieldNotFound (here:
the gap at position `l1.length`) is skipped by every column enumeration —
the RAT column collection, the color-table scan and the histogram-column
search all give the same result as if the gap were absent — and the
lookup miss is never escalated: the enumerations return plain values. -/
theorem claim_C9_gap_indices_skipped :
    ∀ (l1 l2 : List (Option KEAATTField)) (n : Nat) (rows : List (List Int)),
      getFieldByIdx ⟨l1 ++ none :: l2, n, rows⟩ l1.length = .error .fieldNotFound ∧
      collectRATFields ⟨l1 ++ none :: l2, n, rows⟩ = collectRATFields ⟨l1 ++ l2, n, rows⟩ ∧
      scanColorFieldsGet ⟨l1 ++ none :: l2, n, rows⟩ = scanColorFieldsGet ⟨l1 ++ l2, n, rows⟩ ∧
      findHistogramField ⟨l1 ++ none :: l2, n, rows⟩ = findHistogramField ⟨l1 ++ l2, n, rows⟩ := by
  intro l1 l2 n rows
  refine ⟨?_, ?_, ?_, ?_⟩
  · rw [getFieldByIdx]
    have h : (l1 ++ none :: l2).get? l1.length = some none := by
      rw [List.get?_eq_getElem?, List.getElem?_append_right (le_refl _)]
      simp
    rw [h]
  · rw [collectRATFields_eq_foldl, collectRATFields_eq_foldl]
    exact foldl_gap ratCollectG (fun acc => rfl) l1 l2 []
  · rw [scanColorFieldsGet_eq_foldl, scanColorFieldsGet_eq_foldl]
    exact foldl_gap colorGetG (fun acc => rfl) l1 l2 noSlots
  · rw [findHistogramField_eq_foldl, findHistogramField_eq_foldl]
    exact foldl_gap histFindG (fun acc => by cases acc <;> rfl) l1 l2 none

/-! ## Color table (KEABand.cpp, SetColorTable lines 738-842 and
GetColorTable lines 650-736)

A color entry is the RGBA integer 4-tuple `(c1, c2, c3, c4)` of a
`GDALColorEntry`. -/

/-- The "create any missing fields" step of SetColorTable (lines 786-806)
for one color: when the scan slot is empty, `addAttIntField(name, 0, name)`
followed by `getField(name)`; otherwise the scanned field is used as is. -/
def ensureColorField (T : AttTable) (slot : Option KEAATTField) (nm : List Char) :
    Except AttExc (AttTable × KEAATTField) :=
  match slot with
  | some f => .ok (T, f)
  | none => do
    let T2 ← addAttIntField T nm 0 nm
    let f ← getFieldByName T2 nm
    .ok (T2, f)

/-- The per-row write of SetColorTable (lines 816-824): store the four
RGBA components through `at()`. -/
def writeColorRow (idxs : Nat × Nat × Nat × Nat) (e : Int × Int × Int × Int)
    (r : List Int) : Except AttExc (List Int) := do
  let r1 ← setIntField r idxs.1 e.1
  let r2 ← setIntField r1 idxs.2.1 e.2.1
  let r3 ← setIntField r2 idxs.2.2.1 e.2.2.1
  setIntField r3 idxs.2.2.2 e.2.2.2

/-- The write loop of SetColorTable (lines 809-825): one entry per row,
rows beyond the entry count untouched. -/
def writeColorRows (idxs : Nat × Nat × Nat × Nat) :
    List (Int × Int × Int × Int) → List (List Int) → Except AttExc (List (List Int))
  | [], rows => .ok rows
  | _ :: _, [] => .error .outOfRange
  | e :: es, r :: rs => do
    let r2 ← writeColorRow idxs e r
    let rs2 ← writeColorRows idxs es rs
    .ok (r2 :: rs2)

/-- Embedding of `KEARasterBand::SetColorTable` (lines 738-842): grow the
table to the entry count if needed, scan for the four color columns,
create exactly the missing ones (in order Red, Green, Blue, Alpha), then
write the four integers of every entry into the corresponding row. -/
def setColorTable (T : AttTable) (entries : List (Int × Int × Int × Int)) :
    Except AttExc AttTable := do
  let T1 := if T.rows.length < entries.length
    then addRows T (entries.length - T.rows.length) else T
  let s := scanColorFieldsSet T1
  let pR ← ensureColorField T1 s.red "Red".data
  let pG ← ensureColorField pR.1 s.green "Green".data
  let pB ← ensureColorField pG.1 s.blue "Blue".data
  let pA ← ensureColorField pB.1 s.alpha "Alpha".data
  let rows2 ← writeColorRows (pR.2.idx, pG.2.idx, pB.2.idx, pA.2.idx) entries pA.1.rows
  .ok { pA.1 with rows := rows2 }

/-- The per-row read of GetColorTable (lines 710-722). -/
def readColorRows (idxs : Nat × Nat × Nat × Nat) :
    List (List Int) → Except AttExc (List (Int × Int × Int × Int))
  | [] => .ok []
  | r :: rs => do
    let c1 ← getIntField r idxs.1
    let c2 ← getIntField r idxs.2.1
    let c3 ← getIntField r idxs.2.2.1
    let c4 ← getIntField r idxs.2.2.2
    let rest ← readColorRows idxs rs
    .ok ((c1, c2, c3, c4) :: rest)

/-- Embedding of `KEARasterBand::GetColorTable` (lines 650-736): scan for
the four color columns; when one is missing the color table is reported
absent (`none`), not an error; otherwise materialize one RGBA entry per
row of the table. -/
def getColorTable (T : AttTable) : Except AttExc (Option (List (Int × Int × Int × Int))) :=
  match scanColorFieldsGet T with
  | ⟨some fR, some fG, some fB, some fA⟩ => do
    let entries ← readColorRows (fR.idx, fG.idx, fB.idx, fA.idx) T.rows
    .ok (some entries)
  | _ => .ok none

/-- The live integer columns of a table. -/
def intColsOf (T : AttTable) : List KEAATTField :=
  (T.cols.filterMap id).filter (fun f => f.dataType == .kea_att_int)

/-- Well-formedness of an attribute table: every integer column points
inside the integer array, no two integer columns share an array slot, and
every row has exactly `numIntFields` integer cells. -/
def wfTable (T : AttTable) : Prop :=
  (∀ f ∈ T.cols.filterMap id, f.dataType = .kea_att_int → f.idx < T.numIntFields) ∧
  ((intColsOf T).map (fun f => f.idx)).Nodup ∧
  (∀ r ∈ T.rows, r.length = T.numIntFields)

theorem hasFieldNamed_append_one (cols : List (Option KEAATTField)) (f : KEAATTField)
    (n n' : Nat) (rows rows' : List (List Int)) (nm : List Char) :
    hasFieldNamed ⟨cols ++ [some f], n, rows⟩ nm =
      (hasFieldNamed ⟨cols, n', rows'⟩ nm || (f.name == nm)) := by
  simp [hasFieldNamed, List.filterMap_append, List.any_append]

theorem find?_skip_false {α : Type} {p : α → Bool} (l1 l2 : List α)
    (h : ∀ x ∈ l1, p x = false) : (l1 ++ l2).find? p = l2.find? p := by
  induction l1 with
  | nil => rfl
  | cons a t ih =>
    rw [List.cons_append, List.find?_cons, h a (by simp)]
    exact ih (fun x hx => h x (by simp [hx]))

theorem hasFieldNamed_eq_false (T : AttTable) (nm : List Char)
    (h : hasFieldNamed T nm = false) :
    ∀ g ∈ T.cols.filterMap id, (g.name == nm) = false := by
  intro g hg
  rw [hasFieldNamed] at h
  have hg2 := List.any_eq_false.mp h g hg
  simpa using hg2

theorem getFieldByName_append_new (cols : List (Option KEAATTField)) (nm usage : List Char)
    (i n : Nat) (rows : List (List Int))
    (h : ∀ g ∈ cols.filterMap id, (g.name == nm) = false) :
    getFieldByName ⟨cols ++ [some ⟨nm, .kea_att_int, usage, i⟩], n, rows⟩ nm =
      .ok ⟨nm, .kea_att_int, usage, i⟩ := by
  rw [getFieldByName]
  have hfind : (((cols ++ [some (⟨nm, .kea_att_int, usage, i⟩ : KEAATTField)]).filterMap
        id).find? (fun g => g.name == nm)) =
      some (⟨nm, .kea_att_int, usage, i⟩ : KEAATTField) := by
    rw [List.filterMap_append, find?_skip_false _ _ h]
    simp [List.find?_cons]
  rw [hfind]

theorem ensureColorField_some (T : AttTable) (f : KEAATTField) (nm : List Char) :
    ensureColorField T (some f) nm = .ok (T, f) := rfl

theorem ensureColorField_none (T : AttTable) (nm : List Char)
    (h : hasFieldNamed T nm = false) :
    ensureColorField T none nm =
      .ok ({ cols := T.cols ++ [some ⟨nm, .kea_att_int, nm, T.numIntFields⟩],
             numIntFields := T.numIntFields + 1,
             rows := T.rows.map (fun r => r ++ [0]) },
           ⟨nm, .kea_att_int, nm, T.numIntFields⟩) := by
  rw [ensureColorField, addAttIntField]
  obtain ⟨cols, n, rows⟩ := T
  rw [show hasFieldNamed ⟨cols, n, rows⟩ nm = false from h]
  simp only [Bool.false_eq_true, if_false, exc_bind_ok]
  rw [getFieldByName_append_new cols nm nm n (n + 1) (rows.map (fun r => r ++ [0]))
    (hasFieldNamed_eq_false ⟨cols, n, rows⟩ nm h), exc_bind_ok]

theorem setIntField_ok (r : List Int) (i : Nat) (v : Int) (h : i < r.length) :
    setIntField r i v = .ok (r.set i v) := by
  rw [setIntField, if_pos h]

theorem getIntField_set_same (r : List Int) (i : Nat) (v : Int) (h : i < r.length) :
    getIntField (r.set i v) i = .ok v := by
  rw [getIntField, List.get?_eq_getElem?, List.getElem?_set_self]
  simp [List.getElem?_eq_getElem, h]

theorem getIntField_set_other (r : List Int) (i j : Nat) (v : Int) (h : i ≠ j) :
    getIntField (r.set i v) j = getIntField r j := by
  rw [getIntField, getIntField, List.get?_eq_getElem?, List.get?_eq_getElem?,
    List.getElem?_set_ne h]

theorem writeColorRow_reads (i1 i2 i3 i4 : Nat) (e : Int × Int × Int × Int) (r : List Int)
    (h1 : i1 < r.length) (h2 : i2 < r.length) (h3 : i3 < r.length) (h4 : i4 < r.length)
    (d12 : i1 ≠ i2) (d13 : i1 ≠ i3) (d14 : i1 ≠ i4)
    (d23 : i2 ≠ i3) (d24 : i2 ≠ i4) (d34 : i3 ≠ i4) :
    ∃ r4, writeColorRow (i1, i2, i3, i4) e r = .ok r4 ∧ r4.length = r.length ∧
      getIntField r4 i1 = .ok e.1 ∧ getIntField r4 i2 = .ok e.2.1 ∧
      getIntField r4 i3 = .ok e.2.2.1 ∧ getIntField r4 i4 = .ok e.2.2.2 := by
  refine ⟨(((r.set i1 e.1).set i2 e.2.1).set i3 e.2.2.1).set i4 e.2.2.2, ?_, by simp, ?_, ?_, ?_, ?_⟩
  · rw [writeColorRow]
    rw [setIntField_ok r i1 e.1 h1, exc_bind_ok,
      setIntField_ok _ i2 e.2.1 (by simpa using h2), exc_bind_ok,
      setIntField_ok _ i3 e.2.2.1 (by simpa using h3), exc_bind_ok,
      setIntField_ok _ i4 e.2.2.2 (by simpa using h4)]
  · rw [getIntField_set_other _ _ _ _ (Ne.symm d14), getIntField_set_other _ _ _ _ (Ne.symm d13),
      getIntField_set_other _ _ _ _ (Ne.symm d12), getIntField_set_same _ _ _ h1]
  · rw [getIntField_set_other _ _ _ _ (Ne.symm d24), getIntField_set_other _ _ _ _ (Ne.symm d23),
      getIntField_set_same _ _ _ (by simpa using h2)]
  · rw [getIntField_set_other _ _ _ _ (Ne.symm d34),
      getIntField_set_same _ _ _ (by simpa using h3)]
  · rw [getIntField_set_same _ _ _ (by simpa using h4)]

theorem writeColorRows_roundtrip (i1 i2 i3 i4 : Nat) (L : Nat)
    (hb1 : i1 < L) (hb2 : i2 < L) (hb3 : i3 < L) (hb4 : i4 < L)
    (d12 : i1 ≠ i2) (d13 : i1 ≠ i3) (d14 : i1 ≠ i4)
    (d23 : i2 ≠ i3) (d24 : i2 ≠ i4) (d34 : i3 ≠ i4) :
    ∀ (es : List (Int × Int × Int × Int)) (rows : List (List Int)),
      rows.length = es.length → (∀ r ∈ rows, r.length = L) →
      ∃ rows2, writeColorRows (i1, i2, i3, i4) es rows = .ok rows2 ∧
        readColorRows (i1, i2, i3, i4) rows2 = .ok es ∧
        rows2.length = rows.length := by
  intro es
  induction es with
  | nil =>
    intro rows hlen hL
    cases rows with
    | nil => exact ⟨[], rfl, rfl, rfl⟩
    | cons _ _ => simp at hlen
  | cons e es ih =>
    intro rows hlen hL
    cases rows with
    | nil => simp at hlen
    | cons r rs =>
      have hr : r.length = L := hL r (by simp)
      obtain ⟨r4, hw, hlen4, g1, g2, g3, g4⟩ :=
        writeColorRow_reads i1 i2 i3 i4 e r (by omega) (by omega) (by omega) (by omega)
          d12 d13 d14 d23 d24 d34
      obtain ⟨rows2, hws, hrd, hl2⟩ := ih rs (by simpa using hlen) (fun x hx => hL x (by simp [hx]))
      refine ⟨r4 :: rows2, ?_, ?_, by simp [hl2]⟩
      · simp only [writeColorRows]
        rw [hw, exc_bind_ok, hws, exc_bind_ok]
      · simp only [readColorRows]
        rw [g1, exc_bind_ok, g2, exc_bind_ok, g3, exc_bind_ok, g4, exc_bind_ok, hrd, exc_bind_ok]

theorem stepSet_red (acc : RGBASlots) (g : KEAATTField) :
    (colorScanStepSet acc g).red =
      if g.dataType == .kea_att_int && g.usage == "Red".data then some g else acc.red := by
  simp only [colorScanStepSet]
  by_cases hi : (g.dataType == KEAFieldType.kea_att_int) = true <;>
    by_cases hr : (g.usage == "Red".data) = true <;>
      by_cases hg : (g.usage == "Green".data) = true <;>
        by_cases hb : (g.usage == "Blue".data) = true <;>
          by_cases ha : (g.usage == "Alpha".data) = true <;>
            simp [hi, hr, hg, hb, ha]

theorem stepSet_green (acc : RGBASlots) (g : KEAATTField) :
    (colorScanStepSet acc g).green =
      if g.dataType == .kea_att_int && g.usage == "Green".data then some g else acc.green := by
  simp only [colorScanStepSet]
  by_cases hi : (g.dataType == KEAFieldType.kea_att_int) = true <;>
    by_cases hr : (g.usage == "Red".data) = true <;>
      by_cases hg : (g.usage == "Green".data) = true <;>
        by_cases hb : (g.usage == "Blue".data) = true <;>
          by_cases ha : (g.usage == "Alpha".data) = true <;>
            first
              | (exact absurd (beq_iff_eq.mp hg) (by
                  rw [beq_iff_eq.mp hr]; decide))
              | simp [hi, hr, hg, hb, ha]

theorem stepSet_blue (acc : RGBASlots) (g : KEAATTField) :
    (colorScanStepSet acc g).blue =
      if g.dataType == .kea_att_int && g.usage == "Blue".data then some g else acc.blue := by
  simp only [colorScanStepSet]
  by_cases hi : (g.dataType == KEAFieldType.kea_att_int) = true <;>
    by_cases hr : (g.usage == "Red".data) = true <;>
      by_cases hg : (g.usage == "Green".data) = true <;>
        by_cases hb : (g.usage == "Blue".data) = true <;>
          by_cases ha : (g.usage == "Alpha".data) = true <;>
            first
              | (exact absurd (beq_iff_eq.mp hb) (by
                  rw [beq_iff_eq.mp hr]; decide))
              | (exact absurd (beq_iff_eq.mp hb) (by
                  rw [beq_iff_eq.mp hg]; decide))
              | simp [hi, hr, hg, hb, ha]

theorem stepSet_alpha (acc : RGBASlots) (g : KEAATTField) :
    (colorScanStepSet acc g).alpha =
      if g.dataType == .kea_att_int && g.usage == "Alpha".data then some g else acc.alpha := by
  simp only [colorScanStepSet]
  by_cases hi : (g.dataType == KEAFieldType.kea_att_int) = true <;>
    by_cases hr : (g.usage == "Red".data) = true <;>
      by_cases hg : (g.usage == "Green".data) = true <;>
        by_cases hb : (g.usage == "Blue".data) = true <;>
          by_cases ha : (g.usage == "Alpha".data) = true <;>
            first
              | (exact absurd (beq_iff_eq.mp ha) (by
                  rw [beq_iff_eq.mp hr]; decide))
              | (exact absurd (beq_iff_eq.mp ha) (by
                  rw [beq_iff_eq.mp hg]; decide))
              | (exact absurd (beq_iff_eq.mp ha) (by
                  rw [beq_iff_eq.mp hb]; decide))
              | simp [hi, hr, hg, hb, ha]

theorem stepGet_eq_stepSet (acc : RGBASlots) (g : KEAATTField) :
    colorScanStepGet acc g = colorScanStepSet acc g := by
  have h1 := stepSet_red acc g
  have h2 := stepSet_green acc g
  have h3 := stepSet_blue acc g
  have h4 := stepSet_alpha acc g
  have hget : colorScanStepGet acc g =
      ⟨if g.dataType == .kea_att_int && g.usage == "Red".data then some g else acc.red,
       if g.dataType == .kea_att_int && g.usage == "Green".data then some g else acc.green,
       if g.dataType == .kea_att_int && g.usage == "Blue".data then some g else acc.blue,
       if g.dataType == .kea_att_int && g.usage == "Alpha".data then some g else acc.alpha⟩ := by
    simp only [colorScanStepGet]
    by_cases hi : (g.dataType == KEAFieldType.kea_att_int) = true <;> simp [hi]
  rw [hget]
  cases hs : colorScanStepSet acc g
  simp only [RGBASlots.mk.injEq]
  rw [← h1, ← h2, ← h3, ← h4, hs]
  exact ⟨rfl, rfl, rfl, rfl⟩

theorem scanColorFieldsGet_eq_set (T : AttTable) :
    scanColorFieldsGet T = scanColorFieldsSet T := by
  rw [scanColorFieldsGet_eq_foldl, scanColorFieldsSet_eq_foldl]
  apply List.foldl_ext
  intro acc c _
  cases c with
  | none => rfl
  | some g => exact stepGet_eq_stepSet acc g

theorem foldl_slot_spec (proj : RGBASlots → Option KEAATTField) (us : List Char)
    (hstep : ∀ acc g, proj (colorScanStepSet acc g) =
      if g.dataType == .kea_att_int && g.usage == us then some g else proj acc) :
    ∀ (l : List (Option KEAATTField)) (acc : RGBASlots) (f : KEAATTField),
      proj (l.foldl colorSetG acc) = some f →
      proj acc = some f ∨ (some f ∈ l ∧ f.dataType = .kea_att_int ∧ f.usage = us) := by
  intro l
  induction l with
  | nil => intro acc f h; exact Or.inl h
  | cons c t ih =>
    intro acc f h
    rw [List.foldl_cons] at h
    rcases ih (colorSetG acc c) f h with h2 | h2
    · cases c with
      | none => exact Or.inl h2
      | some g =>
        rw [show colorSetG acc (some g) = colorScanStepSet acc g from rfl, hstep] at h2
        by_cases hc : (g.dataType == KEAFieldType.kea_att_int && g.usage == us) = true
        · rw [if_pos hc] at h2
          cases h2
          have hc2 := hc
          simp only [Bool.and_eq_true] at hc2
          exact Or.inr ⟨by simp, beq_iff_eq.mp hc2.1, beq_iff_eq.mp hc2.2⟩
        · rw [if_neg hc] at h2
          exact Or.inl h2
    · exact Or.inr ⟨by simp [h2.1], h2.2⟩

theorem mem_intColsOf (T : AttTable) (f : KEAATTField) (hmem : some f ∈ T.cols)
    (ht : f.dataType = .kea_att_int) : f ∈ intColsOf T := by
  rw [intColsOf, List.mem_filter]
  exact ⟨List.mem_filterMap.mpr ⟨some f, hmem, rfl⟩, by simp [ht]⟩

/-- Provenance of the SetColorTable scan: a filled slot is an integer
column of the table whose usage is the slot's color. -/
theorem scanSet_slots (T : AttTable) :
    (∀ f, (scanColorFieldsSet T).red = some f → f ∈ intColsOf T ∧ f.usage = "Red".data) ∧
    (∀ f, (scanColorFieldsSet T).green = some f → f ∈ intColsOf T ∧ f.usage = "Green".data) ∧
    (∀ f, (scanColorFieldsSet T).blue = some f → f ∈ intColsOf T ∧ f.usage = "Blue".data) ∧
    (∀ f, (scanColorFieldsSet T).alpha = some f → f ∈ intColsOf T ∧ f.usage = "Alpha".data) := by
  rw [scanColorFieldsSet_eq_foldl]
  refine ⟨fun f h => ?_, fun f h => ?_, fun f h => ?_, fun f h => ?_⟩
  · rcases foldl_slot_spec (fun a => a.red) "Red".data stepSet_red T.cols noSlots f h with
      h2 | ⟨hm, ht, hu⟩
    · exact absurd h2 (by simp [noSlots])
    · exact ⟨mem_intColsOf T f hm ht, hu⟩
  · rcases foldl_slot_spec (fun a => a.green) "Green".data stepSet_green T.cols noSlots f h with
      h2 | ⟨hm, ht, hu⟩
    · exact absurd h2 (by simp [noSlots])
    · exact ⟨mem_intColsOf T f hm ht, hu⟩
  · rcases foldl_slot_spec (fun a => a.blue) "Blue".data stepSet_blue T.cols noSlots f h with
      h2 | ⟨hm, ht, hu⟩
    · exact absurd h2 (by simp [noSlots])
    · exact ⟨mem_intColsOf T f hm ht, hu⟩
  · rcases foldl_slot_spec (fun a => a.alpha) "Alpha".data stepSet_alpha T.cols noSlots f h with
      h2 | ⟨hm, ht, hu⟩
    · exact absurd h2 (by simp [noSlots])
    · exact ⟨mem_intColsOf T f hm ht, hu⟩

theorem intColsOf_idx_inj (T : AttTable) (hwf : wfTable T) :
    ∀ f ∈ intColsOf T, ∀ g ∈ intColsOf T, f.idx = g.idx → f = g := by
  intro f hf g hg h
  exact List.inj_on_of_nodup_map hwf.2.1 hf hg h

/-- The table after the "create if missing" step for one color slot. -/
def ensuredTable (T0 : AttTable) (slot : Option KEAATTField) (nm : List Char) : AttTable :=
  match slot with
  | some _ => T0
  | none => { cols := T0.cols ++ [some ⟨nm, .kea_att_int, nm, T0.numIntFields⟩],
              numIntFields := T0.numIntFields + 1,
              rows := T0.rows.map (fun r => r ++ [0]) }

/-- The field used for one color after the "create if missing" step. -/
def ensuredField (T0 : AttTable) (slot : Option KEAATTField) (nm : List Char) : KEAATTField :=
  match slot with
  | some f => f
  | none => ⟨nm, .kea_att_int, nm, T0.numIntFields⟩

/-- 1 if the slot is missing (a column gets created), else 0. -/
def cmiss (slot : Option KEAATTField) : Nat :=
  match slot with
  | none => 1
  | some _ => 0

/-- The column(s) appended for one color slot. -/
def addedOne (slot : Option KEAATTField) (nm : List Char) (b : Nat) :
    List (Option KEAATTField) :=
  match slot with
  | none => [some ⟨nm, .kea_att_int, nm, b⟩]
  | some _ => []

theorem ensureColorField_run (T0 : AttTable) (slot : Option KEAATTField) (nm : List Char)
    (h : slot = none → hasFieldNamed T0 nm = false) :
    ensureColorField T0 slot nm = .ok (ensuredTable T0 slot nm, ensuredField T0 slot nm) := by
  cases slot with
  | none => rw [ensureColorField_none T0 nm (h rfl)]; rfl
  | some f => rfl

theorem ensuredTable_cols (T0 : AttTable) (slot : Option KEAATTField) (nm : List Char) :
    (ensuredTable T0 slot nm).cols = T0.cols ++ addedOne slot nm T0.numIntFields := by
  cases slot <;> simp [ensuredTable, addedOne]

theorem ensuredTable_numIntFields (T0 : AttTable) (slot : Option KEAATTField) (nm : List Char) :
    (ensuredTable T0 slot nm).numIntFields = T0.numIntFields + cmiss slot := by
  cases slot <;> rfl

theorem ensuredTable_rows_length (T0 : AttTable) (slot : Option KEAATTField) (nm : List Char) :
    (ensuredTable T0 slot nm).rows.length = T0.rows.length := by
  cases slot <;> simp [ensuredTable]

theorem ensuredTable_rows_len (T0 : AttTable) (slot : Option KEAATTField) (nm : List Char)
    (L : Nat) (h : ∀ r ∈ T0.rows, r.length = L) :
    ∀ r ∈ (ensuredTable T0 slot nm).rows, r.length = L + cmiss slot := by
  cases slot with
  | some f => simpa [ensuredTable, cmiss] using h
  | none =>
    intro r hr
    simp only [ensuredTable, List.mem_map] at hr
    obtain ⟨r0, hr0, rfl⟩ := hr
    simp [h r0 hr0, cmiss]

theorem ensuredField_idx_some (T0 : AttTable) (f : KEAATTField) (nm : List Char) :
    ensuredField T0 (some f) nm = f := rfl

theorem ensuredField_none (T0 : AttTable) (nm : List Char) :
    ensuredField T0 none nm = ⟨nm, .kea_att_int, nm, T0.numIntFields⟩ := rfl

theorem hasFieldNamed_ensured (T0 : AttTable) (slot : Option KEAATTField) (nm nm' : List Char)
    (hne : (nm == nm') = false) :
    hasFieldNamed (ensuredTable T0 slot nm) nm' = hasFieldNamed T0 nm' := by
  cases slot with
  | some f => rfl
  | none =>
    show hasFieldNamed ⟨T0.cols ++ [some ⟨nm, .kea_att_int, nm, T0.numIntFields⟩],
      T0.numIntFields + 1, T0.rows.map (fun r => r ++ [0])⟩ nm' = _
    rw [hasFieldNamed_append_one T0.cols _ _ T0.numIntFields _ T0.rows nm', hne]
    simp

theorem grow_spec (T : AttTable) (N : Nat)
    (hwfr : ∀ r ∈ T.rows, r.length = T.numIntFields) (hle : T.rows.length ≤ N) :
    (if T.rows.length < N then addRows T (N - T.rows.length) else T).cols = T.cols ∧
    (if T.rows.length < N then addRows T (N - T.rows.length) else T).numIntFields =
      T.numIntFields ∧
    (if T.rows.length < N then addRows T (N - T.rows.length) else T).rows.length = N ∧
    ∀ r ∈ (if T.rows.length < N then addRows T (N - T.rows.length) else T).rows,
      r.length = T.numIntFields := by
  split_ifs with h
  · refine ⟨rfl, rfl, ?_, ?_⟩
    · simp [addRows]
      omega
    · intro r hr
      rw [addRows] at hr
      simp only [List.mem_append, List.mem_replicate] at hr
      rcases hr with hr | hr
      · exact hwfr r hr
      · rw [hr.2]
        simp
  · exact ⟨rfl, rfl, by omega, hwfr⟩

theorem scanSet_cols_congr (T1 T2 : AttTable) (h : T1.cols = T2.cols) :
    scanColorFieldsSet T1 = scanColorFieldsSet T2 := by
  rw [scanColorFieldsSet_eq_foldl, scanColorFieldsSet_eq_foldl, h]

theorem hasFieldNamed_cols_congr (T1 T2 : AttTable) (h : T1.cols = T2.cols) (nm : List Char) :
    hasFieldNamed T1 nm = hasFieldNamed T2 nm := by
  rw [hasFieldNamed, hasFieldNamed, h]

theorem scanSet_append (cols added : List (Option KEAATTField)) (n n2 : Nat)
    (rows rows2 : List (List Int)) :
    scanColorFieldsSet ⟨cols ++ added, n, rows⟩ =
      added.foldl colorSetG (scanColorFieldsSet ⟨cols, n2, rows2⟩) := by
  rw [scanColorFieldsSet_eq_foldl, scanColorFieldsSet_eq_foldl]
  simp [List.foldl_append]

theorem foldl_slot_untouched (proj : RGBASlots → Option KEAATTField) (us : List Char)
    (hstep : ∀ acc g, proj (colorScanStepSet acc g) =
      if g.dataType == .kea_att_int && g.usage == us then some g else proj acc)
    (l : List (Option KEAATTField))
    (h : ∀ c ∈ l, ∀ g, c = some g → (g.usage == us) = false) :
    ∀ acc, proj (l.foldl colorSetG acc) = proj acc := by
  induction l with
  | nil => intro acc; rfl
  | cons c t ih =>
    intro acc
    rw [List.foldl_cons]
    rw [ih (fun x hx g hg => h x (by simp [hx]) g hg)]
    cases c with
    | none => rfl
    | some g =>
      rw [show colorSetG acc (some g) = colorScanStepSet acc g from rfl, hstep]
      rw [h (some g) (by simp) g rfl]
      simp

theorem mem_addedOne (slot : Option KEAATTField) (nm : List Char) (b : Nat) :
    ∀ c ∈ addedOne slot nm b, ∀ g, c = some g →
      g.usage = nm ∧ g.name = nm ∧ g.dataType = .kea_att_int ∧ g.idx = b := by
  cases slot with
  | none =>
    intro c hc g hg
    simp only [addedOne, List.mem_singleton] at hc
    subst hc
    cases hg
    exact ⟨rfl, rfl, rfl, rfl⟩
  | some f => intro c hc; simp [addedOne] at hc

/-- The names of the color columns SetColorTable must create: those among
Red/Green/Blue/Alpha whose usage is carried by no integer column. -/
def missingColorNames (s : RGBASlots) : List (List Char) :=
  (match s.red with | none => ["Red".data] | some _ => []) ++
  (match s.green with | none => ["Green".data] | some _ => []) ++
  (match s.blue with | none => ["Blue".data] | some _ => []) ++
  (match s.alpha with | none => ["Alpha".data] | some _ => [])

/-- The column records SetColorTable creates for one color slot. -/
def createdOne (slot : Option KEAATTField) (nm : List Char) (b : Nat) : List KEAATTField :=
  match slot with
  | none => [⟨nm, .kea_att_int, nm, b⟩]
  | some _ => []

theorem addedOne_eq_map (slot : Option KEAATTField) (nm : List Char) (b : Nat) :
    addedOne slot nm b = (createdOne slot nm b).map some := by
  cases slot <;> rfl

theorem createdOne_names (slot : Option KEAATTField) (nm : List Char) (b : Nat) :
    (createdOne slot nm b).map (fun f => f.name) =
      (match slot with | none => [nm] | some _ => []) := by
  cases slot <;> rfl

theorem createdOne_mem (slot : Option KEAATTField) (nm : List Char) (b : Nat) :
    ∀ f ∈ createdOne slot nm b, f.dataType = .kea_att_int ∧ f.usage = f.name := by
  cases slot with
  | none =>
    intro f hf
    simp only [createdOne, List.mem_singleton] at hf
    subst hf
    exact ⟨rfl, rfl⟩
  | some g => intro f hf; simp [createdOne] at hf

theorem mem_intColsOf_bound (T : AttTable) (hwf1 : ∀ f ∈ T.cols.filterMap id,
      f.dataType = .kea_att_int → f.idx < T.numIntFields) :
    ∀ f ∈ intColsOf T, f.idx < T.numIntFields := by
  intro f hf
  have h1 := (List.mem_filter.mp hf).1
  have h2 : f.dataType = .kea_att_int := beq_iff_eq.mp (List.mem_filter.mp hf).2
  exact hwf1 f h1 h2

/-- C4: for every entry count N (entries list) and well-formed table with
at most N rows whose missing color names are unclaimed, SetColorTable
creates exactly the missing integer columns among those usage-tagged
Red/Green/Blue/Alpha, grows the table to (at least) N rows, writes the
four integers per row, and GetColorTable on the resulting table yields the
same N RGBA tuples in the same row order. -/
theorem claim_C4_color_table_roundtrip (T : AttTable)
    (entries : List (Int × Int × Int × Int))
    (hwf : wfTable T) (hle : T.rows.length ≤ entries.length)
    (hmR : (scanColorFieldsSet T).red = none → hasFieldNamed T "Red".data = false)
    (hmG : (scanColorFieldsSet T).green = none → hasFieldNamed T "Green".data = false)
    (hmB : (scanColorFieldsSet T).blue = none → hasFieldNamed T "Blue".data = false)
    (hmA : (scanColorFieldsSet T).alpha = none → hasFieldNamed T "Alpha".data = false) :
    ∃ T2, setColorTable T entries = .ok T2 ∧
      entries.length ≤ T2.rows.length ∧ T2.rows.length = entries.length ∧
      (∃ added : List KEAATTField,
        T2.cols = T.cols ++ added.map some ∧
        added.map (fun f => f.name) = missingColorNames (scanColorFieldsSet T) ∧
        ∀ f ∈ added, f.dataType = .kea_att_int ∧ f.usage = f.name) ∧
      getColorTable T2 = .ok (some entries) := by
  obtain ⟨hwf1, hwf2, hwf3⟩ := hwf
  obtain ⟨hc1, hn1, hr1, hwr1⟩ := grow_spec T entries.length hwf3 hle
  set T1 := if T.rows.length < entries.length
    then addRows T (entries.length - T.rows.length) else T with hT1
  have hscan1 : scanColorFieldsSet T1 = scanColorFieldsSet T := scanSet_cols_congr T1 T hc1
  have hsl := scanSet_slots T
  rcases hsval : scanColorFieldsSet T with ⟨sr, sg, sb, sa⟩
  simp only [hsval] at hmR hmG hmB hmA hsl hscan1
  set TR := ensuredTable T1 sr "Red".data with hTR
  set TG := ensuredTable TR sg "Green".data with hTG
  set TB := ensuredTable TG sb "Blue".data with hTB
  set TA := ensuredTable TB sa "Alpha".data with hTA
  set F1 := ensuredField T1 sr "Red".data with hF1
  set F2 := ensuredField TR sg "Green".data with hF2
  set F3 := ensuredField TG sb "Blue".data with hF3
  set F4 := ensuredField TB sa "Alpha".data with hF4
  have hb1 : TR.numIntFields = T.numIntFields + cmiss sr := by
    rw [hTR, ensuredTable_numIntFields, hn1]
  have hb2 : TG.numIntFields = T.numIntFields + cmiss sr + cmiss sg := by
    rw [hTG, ensuredTable_numIntFields, hb1]
  have hb3 : TB.numIntFields = T.numIntFields + cmiss sr + cmiss sg + cmiss sb := by
    rw [hTB, ensuredTable_numIntFields, hb2]
  have hinj : ∀ (f g : KEAATTField), f ∈ intColsOf T → g ∈ intColsOf T →
      f.usage ≠ g.usage → f.idx ≠ g.idx := by
    intro f g hf hg hne heq
    exact hne (by rw [intColsOf_idx_inj T ⟨hwf1, hwf2, hwf3⟩ f hf g hg heq])
  have hd1 : (∃ f, sr = some f ∧ F1 = f ∧ f ∈ intColsOf T ∧ f.usage = "Red".data ∧
      f.idx < T.numIntFields ∧ cmiss sr = 0) ∨
      (sr = none ∧ F1.idx = T.numIntFields ∧ cmiss sr = 1) := by
    cases hsr : sr with
    | some f =>
      obtain ⟨hm, hu⟩ := hsl.1 f hsr
      exact Or.inl ⟨f, rfl, by rw [hF1, hsr, ensuredField_idx_some], hm, hu,
        mem_intColsOf_bound T hwf1 f hm, rfl⟩
    | none =>
      refine Or.inr ⟨rfl, ?_, rfl⟩
      rw [hF1, hsr, ensuredField_none]
      exact hn1
  have hd2 : (∃ f, sg = some f ∧ F2 = f ∧ f ∈ intColsOf T ∧ f.usage = "Green".data ∧
      f.idx < T.numIntFields ∧ cmiss sg = 0) ∨
      (sg = none ∧ F2.idx = T.numIntFields + cmiss sr ∧ cmiss sg = 1) := by
    cases hsg : sg with
    | some f =>
      obtain ⟨hm, hu⟩ := hsl.2.1 f hsg
      exact Or.inl ⟨f, rfl, by rw [hF2, hsg, ensuredField_idx_some], hm, hu,
        mem_intColsOf_bound T hwf1 f hm, rfl⟩
    | none =>
      refine Or.inr ⟨rfl, ?_, rfl⟩
      rw [hF2, hsg, ensuredField_none]
      exact hb1
  have hd3 : (∃ f, sb = some f ∧ F3 = f ∧ f ∈ intColsOf T ∧ f.usage = "Blue".data ∧
      f.idx < T.numIntFields ∧ cmiss sb = 0) ∨
      (sb = none ∧ F3.idx = T.numIntFields + cmiss sr + cmiss sg ∧ cmiss sb = 1) := by
    cases hsb : sb with
    | some f =>
      obtain ⟨hm, hu⟩ := hsl.2.2.1 f hsb
      exact Or.inl ⟨f, rfl, by rw [hF3, hsb, ensuredField_idx_some], hm, hu,
        mem_intColsOf_bound T hwf1 f hm, rfl⟩
    | none =>
      refine Or.inr ⟨rfl, ?_, rfl⟩
      rw [hF3, hsb, ensuredField_none]
      exact hb2
  have hd4 : (∃ f, sa = some f ∧ F4 = f ∧ f ∈ intColsOf T ∧ f.usage = "Alpha".data ∧
      f.idx < T.numIntFields ∧ cmiss sa = 0) ∨
      (sa = none ∧ F4.idx = T.numIntFields + cmiss sr + cmiss sg + cmiss sb ∧
        cmiss sa = 1) := by
    cases hsa : sa with
    | some f =>
      obtain ⟨hm, hu⟩ := hsl.2.2.2 f hsa
      exact Or.inl ⟨f, rfl, by rw [hF4, hsa, ensuredField_idx_some], hm, hu,
        mem_intColsOf_bound T hwf1 f hm, rfl⟩
    | none =>
      refine Or.inr ⟨rfl, ?_, rfl⟩
      rw [hF4, hsa, ensuredField_none]
      exact hb3
  have d12 : F1.idx ≠ F2.idx := by
    rcases hd1 with ⟨f, _, hfe, hfm, hfu, hfb, hcm⟩ | ⟨_, hidx, hcm⟩ <;>
      rcases hd2 with ⟨g, _, hge, hgm, hgu, hgb, hcm2⟩ | ⟨_, hidx2, hcm2⟩
    · rw [hfe, hge]
      exact hinj f g hfm hgm (by rw [hfu, hgu]; decide)
    · rw [hfe]
      omega
    · rw [hge]
      omega
    · omega
  have d13 : F1.idx ≠ F3.idx := by
    rcases hd1 with ⟨f, _, hfe, hfm, hfu, hfb, hcm⟩ | ⟨_, hidx, hcm⟩ <;>
      rcases hd3 with ⟨g, _, hge, hgm, hgu, hgb, hcm2⟩ | ⟨_, hidx2, hcm2⟩
    · rw [hfe, hge]
      exact hinj f g hfm hgm (by rw [hfu, hgu]; decide)
    · rw [hfe]
      omega
    · rw [hge]
      omega
    · omega
  have d14 : F1.idx ≠ F4.idx := by
    rcases hd1 with ⟨f, _, hfe, hfm, hfu, hfb, hcm⟩ | ⟨_, hidx, hcm⟩ <;>
      rcases hd4 with ⟨g, _, hge, hgm, hgu, hgb, hcm2⟩ | ⟨_, hidx2, hcm2⟩
    · rw [hfe, hge]
      exact hinj f g hfm hgm (by rw [hfu, hgu]; decide)
    · rw [hfe]
      omega
    · rw [hge]
      omega
    · omega
  have d23 : F2.idx ≠ F3.idx := by
    rcases hd2 with ⟨f, _, hfe, hfm, hfu, hfb, hcm⟩ | ⟨_, hidx, hcm⟩ <;>
      rcases hd3 with ⟨g, _, hge, hgm, hgu, hgb, hcm2⟩ | ⟨_, hidx2, hcm2⟩
    · rw [hfe, hge]
      exact hinj f g hfm hgm (by rw [hfu, hgu]; decide)
    · rw [hfe]
      omega
    · rw [hge]
      omega
    · omega
  have d24 : F2.idx ≠ F4.idx := by
    rcases hd2 with ⟨f, _, hfe, hfm, hfu, hfb, hcm⟩ | ⟨_, hidx, hcm⟩ <;>
      rcases hd4 with ⟨g, _, hge, hgm, hgu, hgb, hcm2⟩ | ⟨_, hidx2, hcm2⟩
    · rw [hfe, hge]
      exact hinj f g hfm hgm (by rw [hfu, hgu]; decide)
    · rw [hfe]
      omega
    · rw [hge]
      omega
    · omega
  have d34 : F3.idx ≠ F4.idx := by
    rcases hd3 with ⟨f, _, hfe, hfm, hfu, hfb, hcm⟩ | ⟨_, hidx, hcm⟩ <;>
      rcases hd4 with ⟨g, _, hge, hgm, hgu, hgb, hcm2⟩ | ⟨_, hidx2, hcm2⟩
    · rw [hfe, hge]
      exact hinj f g hfm hgm (by rw [hfu, hgu]; decide)
    · rw [hfe]
      omega
    · rw [hge]
      omega
    · omega
  set L := T.numIntFields + cmiss sr + cmiss sg + cmiss sb + cmiss sa with hLdef
  have hB1 : F1.idx < L := by
    rcases hd1 with ⟨f, _, hfe, _, _, hfb, hcm⟩ | ⟨_, hidx, hcm⟩
    · rw [hfe]
      omega
    · omega
  have hB2 : F2.idx < L := by
    rcases hd2 with ⟨f, _, hfe, _, _, hfb, hcm⟩ | ⟨_, hidx, hcm⟩
    · rw [hfe]
      omega
    · omega
  have hB3 : F3.idx < L := by
    rcases hd3 with ⟨f, _, hfe, _, _, hfb, hcm⟩ | ⟨_, hidx, hcm⟩
    · rw [hfe]
      omega
    · omega
  have hB4 : F4.idx < L := by
    rcases hd4 with ⟨f, _, hfe, _, _, hfb, hcm⟩ | ⟨_, hidx, hcm⟩
    · rw [hfe]
      omega
    · omega
  have hrTA_len : TA.rows.length = entries.length := by
    rw [hTA, ensuredTable_rows_length, hTB, ensuredTable_rows_length, hTG,
      ensuredTable_rows_length, hTR, ensuredTable_rows_length]
    exact hr1
  have hrTA_L : ∀ r ∈ TA.rows, r.length = L := by
    have s1 : ∀ r ∈ TR.rows, r.length = T.numIntFields + cmiss sr := by
      rw [hTR]
      exact ensuredTable_rows_len T1 sr "Red".data T.numIntFields hwr1
    have s2 : ∀ r ∈ TG.rows, r.length = T.numIntFields + cmiss sr + cmiss sg := by
      rw [hTG]
      exact ensuredTable_rows_len TR sg "Green".data (T.numIntFields + cmiss sr) s1
    have s3 : ∀ r ∈ TB.rows, r.length = T.numIntFields + cmiss sr + cmiss sg + cmiss sb := by
      rw [hTB]
      exact ensuredTable_rows_len TG sb "Blue".data
        (T.numIntFields + cmiss sr + cmiss sg) s2
    have s4 : ∀ r ∈ TA.rows,
        r.length = T.numIntFields + cmiss sr + cmiss sg + cmiss sb + cmiss sa := by
      rw [hTA]
      exact ensuredTable_rows_len TB sa "Alpha".data
        (T.numIntFields + cmiss sr + cmiss sg + cmiss sb) s3
    exact s4
  obtain ⟨rows2, hws, hrd, hlen2⟩ := writeColorRows_roundtrip F1.idx F2.idx F3.idx F4.idx L
    hB1 hB2 hB3 hB4 d12 d13 d14 d23 d24 d34 entries TA.rows (by rw [hrTA_len]) hrTA_L
  have hhR : sr = none → hasFieldNamed T1 "Red".data = false := fun h => by
    rw [hasFieldNamed_cols_congr T1 T hc1]
    exact hmR h
  have hhG : sg = none → hasFieldNamed TR "Green".data = false := fun h => by
    rw [hTR, hasFieldNamed_ensured T1 sr "Red".data "Green".data (by decide),
      hasFieldNamed_cols_congr T1 T hc1]
    exact hmG h
  have hhB : sb = none → hasFieldNamed TG "Blue".data = false := fun h => by
    rw [hTG, hasFieldNamed_ensured TR sg "Green".data "Blue".data (by decide),
      hTR, hasFieldNamed_ensured T1 sr "Red".data "Blue".data (by decide),
      hasFieldNamed_cols_congr T1 T hc1]
    exact hmB h
  have hhA : sa = none → hasFieldNamed TB "Alpha".data = false := fun h => by
    rw [hTB, hasFieldNamed_ensured TG sb "Blue".data "Alpha".data (by decide),
      hTG, hasFieldNamed_ensured TR sg "Green".data "Alpha".data (by decide),
      hTR, hasFieldNamed_ensured T1 sr "Red".data "Alpha".data (by decide),
      hasFieldNamed_cols_congr T1 T hc1]
    exact hmA h
  have hcolsTA : TA.cols =
      T.cols ++ addedOne sr "Red".data T1.numIntFields
        ++ addedOne sg "Green".data TR.numIntFields
        ++ addedOne sb "Blue".data TG.numIntFields
        ++ addedOne sa "Alpha".data TB.numIntFields := by
    rw [hTA, ensuredTable_cols, hTB, ensuredTable_cols, hTG, ensuredTable_cols, hTR,
      ensuredTable_cols, hc1]
  have hA1 : (addedOne sr "Red".data T1.numIntFields).foldl colorSetG
      (⟨sr, sg, sb, sa⟩ : RGBASlots) = ⟨some F1, sg, sb, sa⟩ := by
    cases hsr : sr with
    | some f =>
      rw [hF1, hsr, ensuredField_idx_some]
      rfl
    | none =>
      rw [hF1, hsr, ensuredField_none]
      rfl
  have hA2 : (addedOne sg "Green".data TR.numIntFields).foldl colorSetG
      (⟨some F1, sg, sb, sa⟩ : RGBASlots) = ⟨some F1, some F2, sb, sa⟩ := by
    cases hsg : sg with
    | some f =>
      rw [hF2, hsg, ensuredField_idx_some]
      rfl
    | none =>
      rw [hF2, hsg, ensuredField_none]
      rfl
  have hA3 : (addedOne sb "Blue".data TG.numIntFields).foldl colorSetG
      (⟨some F1, some F2, sb, sa⟩ : RGBASlots) = ⟨some F1, some F2, some F3, sa⟩ := by
    cases hsb : sb with
    | some f =>
      rw [hF3, hsb, ensuredField_idx_some]
      rfl
    | none =>
      rw [hF3, hsb, ensuredField_none]
      rfl
  have hA4 : (addedOne sa "Alpha".data TB.numIntFields).foldl colorSetG
      (⟨some F1, some F2, some F3, sa⟩ : RGBASlots) =
      ⟨some F1, some F2, some F3, some F4⟩ := by
    cases hsa : sa with
    | some f =>
      rw [hF4, hsa, ensuredField_idx_some]
      rfl
    | none =>
      rw [hF4, hsa, ensuredField_none]
      rfl
  refine ⟨{ TA with rows := rows2 }, ?_, ?_, ?_, ?_, ?_⟩
  · simp only [setColorTable]
    rw [← hT1, hscan1]
    rw [ensureColorField_run T1 sr "Red".data hhR, ← hTR, ← hF1]
    simp only [exc_bind_ok]
    rw [ensureColorField_run TR sg "Green".data hhG, ← hTG, ← hF2]
    simp only [exc_bind_ok]
    rw [ensureColorField_run TG sb "Blue".data hhB, ← hTB, ← hF3]
    simp only [exc_bind_ok]
    rw [ensureColorField_run TB sa "Alpha".data hhA, ← hTA, ← hF4]
    simp only [exc_bind_ok]
    rw [hws]
    simp only [exc_bind_ok]
  · show entries.length ≤ rows2.length
    rw [hlen2, hrTA_len]
  · show rows2.length = entries.length
    rw [hlen2, hrTA_len]
  · refine ⟨createdOne sr "Red".data T1.numIntFields
      ++ createdOne sg "Green".data TR.numIntFields
      ++ createdOne sb "Blue".data TG.numIntFields
      ++ createdOne sa "Alpha".data TB.numIntFields, ?_, ?_, ?_⟩
    · show TA.cols = _
      rw [hcolsTA]
      simp [addedOne_eq_map, List.map_append, List.append_assoc]
    · simp only [List.map_append, createdOne_names, missingColorNames]
    · intro f hf
      simp only [List.mem_append] at hf
      rcases hf with ((hf | hf) | hf) | hf
      · exact createdOne_mem sr "Red".data T1.numIntFields f hf
      · exact createdOne_mem sg "Green".data TR.numIntFields f hf
      · exact createdOne_mem sb "Blue".data TG.numIntFields f hf
      · exact createdOne_mem sa "Alpha".data TB.numIntFields f hf
  · have hscanT2 : scanColorFieldsGet ({ TA with rows := rows2 } : AttTable) =
        ⟨some F1, some F2, some F3, some F4⟩ := by
      rw [scanColorFieldsGet_eq_set, scanColorFieldsSet_eq_foldl]
      rw [show ({ TA with rows := rows2 } : AttTable).cols = TA.cols from rfl, hcolsTA]
      simp only [List.foldl_append]
      rw [show T.cols.foldl colorSetG noSlots = (⟨sr, sg, sb, sa⟩ : RGBASlots) from by
        rw [← scanColorFieldsSet_eq_foldl, hsval]]
      rw [hA1, hA2, hA3, hA4]
    rw [getColorTable, hscanT2]
    change (do
      let es ← readColorRows (F1.idx, F2.idx, F3.idx, F4.idx)
        ({ TA with rows := rows2 } : AttTable).rows
      Except.ok (some es)) = _
    rw [show ({ TA with rows := rows2 } : AttTable).rows = rows2 from rfl, hrd]
    rfl

/-- Witness for C4: a table that already carries an integer Red column,
and a two-entry color table. -/
theorem claim_C4_color_table_roundtrip_witness :
    wfTable ⟨[some ⟨"Red".data, .kea_att_int, "Red".data, 0⟩], 1, []⟩ ∧
    (⟨[some ⟨"Red".data, .kea_att_int, "Red".data, 0⟩], 1, []⟩ : AttTable).rows.length ≤
      [((1 : Int), (2 : Int), (3 : Int), (4 : Int)), (5, 6, 7, 8)].length ∧
    ∃ T2, setColorTable ⟨[some ⟨"Red".data, .kea_att_int, "Red".data, 0⟩], 1, []⟩
        [((1 : Int), (2 : Int), (3 : Int), (4 : Int)), (5, 6, 7, 8)] = .ok T2 ∧
      [((1 : Int), (2 : Int), (3 : Int), (4 : Int)), (5, 6, 7, 8)].length ≤
        T2.rows.length ∧
      T2.rows.length =
        [((1 : Int), (2 : Int), (3 : Int), (4 : Int)), (5, 6, 7, 8)].length ∧
      (∃ added : List KEAATTField,
        T2.cols = (⟨[some ⟨"Red".data, .kea_att_int, "Red".data, 0⟩], 1, []⟩ :
            AttTable).cols ++ added.map some ∧
        added.map (fun f => f.name) =
          missingColorNames (scanColorFieldsSet
            ⟨[some ⟨"Red".data, .kea_att_int, "Red".data, 0⟩], 1, []⟩) ∧
        ∀ f ∈ added, f.dataType = .kea_att_int ∧ f.usage = f.name) ∧
      getColorTable T2 =
        .ok (some [((1 : Int), (2 : Int), (3 : Int), (4 : Int)), (5, 6, 7, 8)]) := by
  refine ⟨⟨by decide, by decide, by decide⟩, by decide, ?_⟩
  exact claim_C4_color_table_roundtrip
    ⟨[some ⟨"Red".data, .kea_att_int, "Red".data, 0⟩], 1, []⟩
    [((1 : Int), (2 : Int), (3 : Int), (4 : Int)), (5, 6, 7, 8)]
    ⟨by decide, by decide, by decide⟩ (by decide) (by decide) (by decide) (by decide)
    (by decide)

end KEA
